import Mathlib

/-!
Verification of the load-case / result-combination layer of the
OpenSees model-generator repository (`src/osmg/analysis/load_case.py`,
`src/osmg/core/common.py`).

Tabular results (pandas DataFrames with hierarchical column labels) are
modelled as explicit column-label lists paired with row-major numeric
data; machine floats are idealised as rationals, so all elementwise
operations are exact.  Python dicts keyed by node / component ids are
modelled either as association lists (when insertion order matters) or
as functions into `Option` (when only lookup matters).  Fallible
operations return `Except String`.
-/

/-- A pandas DataFrame with a MultiIndex on its columns:
`levelNames` are the named column levels, `columns` the column keys
(one list of level values per column, outer level first), and `data`
the numeric payload, one inner list per row, positionally aligned with
`columns`. -/
structure DataFrame where
  levelNames : List String
  columns : List (List String)
  data : List (List ℚ)
deriving DecidableEq

/-- Insert a string into a sorted, duplicate-free list, keeping it
sorted and duplicate-free. -/
def insertSorted (x : String) : List String → List String
  | [] => [x]
  | y :: ys =>
    if x < y then x :: y :: ys
    else if x = y then y :: ys
    else y :: insertSorted x ys

/-- Sorted unique values, as pandas stores them in `MultiIndex.levels`. -/
def sortedDedup (l : List String) : List String :=
  l.foldr insertSorted []

/-- Positions of the columns whose value at level `li` equals `v`
(the selection step of `DataFrame.xs(v, level=li, axis=1)`). -/
def colPositions (cols : List (List String)) (li : ℕ) (v : String) : List ℕ :=
  (List.range cols.length).filter (fun p => (cols.getD p []).getD li "" = v)

/-- Extract the entries of a row at the given column positions. -/
def selectRow (row : List ℚ) (ps : List ℕ) : List ℚ :=
  ps.map (fun p => row.getD p 0)

/-- Column keys of `df.xs(v, level=li, axis=1)`: the matching columns,
with level `li` dropped, in their original order. -/
def xsColumns (df : DataFrame) (li : ℕ) (v : String) : List (List String) :=
  (colPositions df.columns li v).map (fun p => (df.columns.getD p []).eraseIdx li)

/-- Data of `df.xs(v, level=li, axis=1)`. -/
def xsData (df : DataFrame) (li : ℕ) (v : String) : List (List ℚ) :=
  df.data.map (fun row => selectRow row (colPositions df.columns li v))

/-- Embedding of `ensure_minmax_level_exists_or_add`
(load_case.py:31): if the column hierarchy lacks a `min/max` level,
build interleaved `(c, 'max'), (c, 'min')` labels with
`MultiIndex.from_tuples` while the data is duplicated blockwise with
`pd.concat([data, data], axis=1)` (each row becomes `row ++ row`). -/
def ensure_minmax_level_exists_or_add (df : DataFrame) : DataFrame :=
  if "min/max" ∈ df.levelNames then df
  else
    { levelNames := df.levelNames ++ ["min/max"]
      columns := df.columns.flatMap (fun c => [c ++ ["max"], c ++ ["min"]])
      data := df.data.map (fun row => row ++ row) }

/-- The two combination actions accepted by `combine_single`.  The
source also raises on any other action string; the closed enumeration
models the `Literal['add', 'envelope']` annotation. -/
inductive CombineAction
  | add
  | envelope
deriving DecidableEq

/-- Embedding of `combine_single` (load_case.py:59).  `add` checks the
column hierarchies (names and keys/order) and sums elementwise.
`envelope` first applies `ensure_minmax_level_exists_or_add` to both
inputs, checks alignment, takes the elementwise max of the `max`
cross-sections and min of the `min` cross-sections, concatenates the
two blocks side by side, and relabels the result positionally with
`MultiIndex.from_product(levels[0], levels[1], ['max', 'min'])`. -/
def combine_single (df1 df2 : DataFrame) (action : CombineAction) :
    Except String DataFrame :=
  match action with
  | .add =>
    if df1.levelNames ≠ df2.levelNames ∨ df1.columns ≠ df2.columns then
      .error "Cannot align DataFrames with different columns"
    else
      .ok { df1 with
              data := List.zipWith (List.zipWith (· + ·)) df1.data df2.data }
  | .envelope =>
    let d1 := ensure_minmax_level_exists_or_add df1
    let d2 := ensure_minmax_level_exists_or_add df2
    if d1.levelNames ≠ d2.levelNames ∨ d1.columns ≠ d2.columns then
      .error "Cannot align DataFrames with different columns"
    else
      let li := d1.levelNames.findIdx (· == "min/max")
      let maxCols := xsColumns d1 li "max"
      let minCols := xsColumns d1 li "min"
      let maxData := List.zipWith (List.zipWith max)
        (xsData d1 li "max") (xsData d2 li "max")
      let minData := List.zipWith (List.zipWith min)
        (xsData d1 li "min") (xsData d2 li "min")
      let combinedData := List.zipWith (· ++ ·) maxData minData
      let remNames := d1.levelNames.eraseIdx li
      if remNames.length ≠ 2 then
        .error "Length of names must match number of levels in MultiIndex."
      else
        let levels0 := sortedDedup (maxCols.map (fun c => c.getD 0 ""))
        let levels1 := sortedDedup (maxCols.map (fun c => c.getD 1 ""))
        let newCols := levels0.flatMap (fun a =>
          levels1.flatMap (fun b => [[a, b, "max"], [a, b, "min"]]))
        if newCols.length ≠ maxCols.length + minCols.length then
          .error "Length mismatch between new columns and data width."
        else
          .ok { levelNames := remNames ++ ["min/max"]
                columns := newCols
                data := combinedData }

/-- Embedding of `combine` (load_case.py:126): left fold of
`combine_single`; fewer than two tables is an error. -/
def combine (dfs : List DataFrame) (action : CombineAction) :
    Except String DataFrame :=
  if dfs.length < 2 then
    .error "At least two DataFrames are required to combine."
  else
    match dfs with
    | [] => .error "At least two DataFrames are required to combine."
    | d :: rest => rest.foldlM (fun acc df => combine_single acc df action) d

/-- Value of row `r` of a DataFrame under the column labelled `col`
(0 when absent, for use at concrete well-formed inputs). -/
def dfLookup (df : DataFrame) (r : ℕ) (col : List String) : ℚ :=
  (df.data.getD r []).getD (df.columns.findIdx (· == col)) 0

/-- Embedding of `np.interp(x, xp, fp)` as used by
`SpectrumLoadCase.interpolate_spectrum` (load_case.py:657): the period
table is a list of `(period, Sa)` points with increasing periods;
queries left of the first point return the first Sa, queries right of
the last point return the last Sa, and queries in between are linearly
interpolated. -/
def np_interp (x : ℚ) : List (ℚ × ℚ) → ℚ
  | [] => 0
  | [(_, y0)] => y0
  | (x0, y0) :: (x1, y1) :: rest =>
    if x ≤ x0 then y0
    else if x ≤ x1 then y0 + (x - x0) * (y1 - y0) / (x1 - x0)
    else np_interp x ((x1, y1) :: rest)

/-- Embedding of `SpectrumLoadCase.interpolate_spectrum`
(load_case.py:657): the design spectrum is the CSV-loaded table of
`(period, Sa(g))` rows and the query delegates to `np.interp`. -/
def interpolate_spectrum (design_spectrum : List (ℚ × ℚ)) (period : ℚ) : ℚ :=
  np_interp period design_spectrum

/-- Insert a point into a list sorted by first component (stable). -/
def insertPairSorted (x : ℚ × ℚ) : List (ℚ × ℚ) → List (ℚ × ℚ)
  | [] => [x]
  | y :: ys => if x.1 ≤ y.1 then x :: y :: ys else y :: insertPairSorted x ys

/-- Sort interpolation points by abscissa, as
`scipy.interpolate.interp1d` does internally (`assume_sorted=False`). -/
def sortPairs (l : List (ℚ × ℚ)) : List (ℚ × ℚ) :=
  l.foldr insertPairSorted []

/-- Linear interpolation over sorted points with linear extrapolation
from the outermost segments, the behaviour of
`scipy.interpolate.interp1d(..., kind='linear',
fill_value='extrapolate')`. -/
def interpSorted (x : ℚ) : List (ℚ × ℚ) → ℚ
  | [] => 0
  | [(_, y0)] => y0
  | [(x0, y0), (x1, y1)] => y0 + (x - x0) * (y1 - y0) / (x1 - x0)
  | (x0, y0) :: (x1, y1) :: p2 :: rest =>
    if x ≤ x1 then y0 + (x - x0) * (y1 - y0) / (x1 - x0)
    else interpSorted x ((x1, y1) :: p2 :: rest)

/-- Embedding of `scipy.interpolate.interp1d(xs, ys, kind='linear',
fill_value='extrapolate')` applied to a query: sort, then piecewise
linear with extrapolation. -/
def interp1d_extrapolate (pts : List (ℚ × ℚ)) (x : ℚ) : ℚ :=
  interpSorted x (sortPairs pts)

/-- The fixed `Cu` table of `SeismicELFLoadCase.define_loads`
(load_case.py:732), keyed by `Sd1`, exactly as written in the source. -/
def cu_table : List (ℚ × ℚ) :=
  [(0.4, 1.4), (0.3, 1.4), (0.2, 1.5), (0.15, 1.6), (0.1, 1.7)]

/-- The fixed vertical-distribution-exponent table of
`SeismicELFLoadCase.define_loads` (load_case.py:751). -/
def exponent_table : List (ℚ × ℚ) := [(0.5, 1.0), (2.5, 2.0)]

/-- Update of a function-represented Python dict. -/
def dictSet {α : Type} (f : ℕ → Option α) (k : ℕ) (v : α) : ℕ → Option α :=
  fun u => if u = k then some v else f u

/-- Controlling period of `SeismicELFLoadCase.define_loads`
(load_case.py:729-743): `min(T1, Cu(sd1) * Ct * height ** x)`.  The
float power primitive `**` is passed in as `fpow`. -/
def elf_controling_period (fpow : ℚ → ℚ → ℚ)
    (first_mode_period sd1 structural_height : ℚ)
    (approximate_period_parameters : ℚ × ℚ) : ℚ :=
  let approximate_period :=
    approximate_period_parameters.1 *
      fpow structural_height approximate_period_parameters.2
  let cu_value := interp1d_extrapolate cu_table sd1
  min first_mode_period (cu_value * approximate_period)

/-- Base shear `Vb = Cs * W` of `SeismicELFLoadCase.define_loads`
(load_case.py:744-750), with `Cs = Sa(T) / (R / Ie)` and `W` the sum of
the stored seismic weights. -/
def elf_v_b (design_spectrum : List (ℚ × ℚ)) (seismic_weight : List (ℕ × ℚ))
    (response_modification_factor importance_factor controling_period : ℚ) : ℚ :=
  let s_a := interpolate_spectrum design_spectrum controling_period
  let c_s := s_a / (response_modification_factor / importance_factor)
  let weight := (seismic_weight.map Prod.snd).sum
  c_s * weight

/-- Unnormalised `Cvx` values of `SeismicELFLoadCase.define_loads`
(load_case.py:758-766): for every weighted node, skip it when its
elevation above the base is negative, otherwise
`weight * ((elevation - base) * length_to_feet_factor) ** k`. -/
def elf_nodal_cvx (fpow : ℚ → ℚ → ℚ) (all_nodes : ℕ → List ℚ)
    (seismic_weight : List (ℕ × ℚ))
    (base_elevation length_to_feet_factor exponent_value : ℚ) :
    List (ℕ × ℚ) :=
  seismic_weight.filterMap (fun nw =>
    let node_elevation := (all_nodes nw.1).getLastD 0 - base_elevation
    if node_elevation < 0 then none
    else some (nw.1,
      nw.2 * fpow (node_elevation * length_to_feet_factor) exponent_value))

/-- Embedding of `SeismicELFLoadCase.define_loads` (load_case.py:695):
computes the controlling period, spectral acceleration, base shear and
distribution exponent, normalises the nodal `Cvx` values so that they
sum to `Vb`, and writes `PointLoad(direction * Cvx)` into the case's
nodal load dict for every retained node.  `fpow` is the float `**`
primitive and `nodal_loads0` the load registry's nodal-load dict before
the call. -/
def define_loads (fpow : ℚ → ℚ → ℚ) (all_nodes : ℕ → List ℚ)
    (seismic_weight : List (ℕ × ℚ)) (design_spectrum : List (ℚ × ℚ))
    (response_modification_factor importance_factor first_mode_period
      sd1 structural_height : ℚ)
    (approximate_period_parameters : ℚ × ℚ) (direction : List ℚ)
    (base_elevation length_to_feet_factor : ℚ)
    (nodal_loads0 : ℕ → Option (List ℚ)) : ℕ → Option (List ℚ) :=
  let controling_period := elf_controling_period fpow first_mode_period sd1
    structural_height approximate_period_parameters
  let v_b := elf_v_b design_spectrum seismic_weight
    response_modification_factor importance_factor controling_period
  let exponent_value := interp1d_extrapolate exponent_table controling_period
  let nodal_cvx_value := elf_nodal_cvx fpow all_nodes seismic_weight
    base_elevation length_to_feet_factor exponent_value
  let total_cvx := (nodal_cvx_value.map Prod.snd).sum
  let scaled := nodal_cvx_value.map (fun uv => (uv.1, uv.2 * (v_b / total_cvx)))
  scaled.foldl (fun loads uf =>
    dictSet loads uf.1 (direction.map (fun v => v * uf.2))) nodal_loads0

/-- Embedding of `np.linspace(start, stop, num)` with its default
inclusive endpoint: `num` evenly spaced points from `start` to `stop`
(a single point collapses to `start`). -/
def np_linspace (start stop : ℚ) (num : ℕ) : List ℚ :=
  if num = 1 then [start]
  else (List.range num).map
    (fun (i : ℕ) => start + (stop - start) * (i : ℚ) / ((num : ℚ) - 1))

/-- The per-element inputs that `LoadCase.calculate_basic_forces`
(load_case.py:275) has gathered by the time it evaluates the station
formulas: the recorder's element list, the recorder values at each
element's i-end (`station = 0.0`) for the axial, shear-Y and moment-Z
degrees of freedom (one inner list per analysis-index row, positionally
aligned with `elements`), the local distributed load of each element,
each element's clear length, and the station count. -/
structure BasicForcesData where
  elements : List ℕ
  axial_i : List (List ℚ)
  shear_y_i : List (List ℚ)
  moment_z_i : List (List ℚ)
  udls_local : ℕ → Option (ℚ × ℚ × ℚ)
  element_lengths : ℕ → ℚ
  num_stations : ℕ

/-- The `w_data_axial` array (load_case.py:419): the local-x UDL
component per recorder element, 0 for elements without a local UDL. -/
def w_axial (d : BasicForcesData) : List ℚ :=
  d.elements.map (fun e =>
    match d.udls_local e with
    | some u => u.1
    | none => 0)

/-- The `w_data_shear_y` array (load_case.py:446): the local-y UDL
component per recorder element, 0 for elements without a local UDL. -/
def w_shear_y (d : BasicForcesData) : List ℚ :=
  d.elements.map (fun e =>
    match d.udls_local e with
    | some u => u.2.1
    | none => 0)

/-- The `locations` array (load_case.py:393): for each recorder
element, `num_stations` evenly spaced positions from 0 to its clear
length. -/
def locations (d : BasicForcesData) : List (List ℚ) :=
  d.elements.map (fun e => np_linspace 0 (d.element_lengths e) d.num_stations)

/-- The flattened axial-force table (load_case.py:417-432): per row,
`-(N_i + w_x * x)` broadcast over elements and stations, reshaped
row-major so that column `e * num_stations + s` is element `e`,
station `s`. -/
def result_axial (d : BasicForcesData) : List (List ℚ) :=
  d.axial_i.map (fun dataRow =>
    (List.zip (List.zip dataRow (w_axial d)) (locations d)).flatMap
      (fun dwl => dwl.2.map (fun x => -(dwl.1.1 + dwl.1.2 * x))))

/-- The flattened shear-Y table (load_case.py:444-461): per row,
`V_yi + w_y * x`, same layout as `result_axial`. -/
def result_shear_y (d : BasicForcesData) : List (List ℚ) :=
  d.shear_y_i.map (fun dataRow =>
    (List.zip (List.zip dataRow (w_shear_y d)) (locations d)).flatMap
      (fun dwl => dwl.2.map (fun x => dwl.1.1 + dwl.1.2 * x)))

/-- The flattened moment-Z table (load_case.py:564-585): per row,
`x^2 * 0.5 * w_y + x * V_yi - M_zi`, same layout as `result_axial`. -/
def result_moment_z (d : BasicForcesData) : List (List ℚ) :=
  (List.zip d.shear_y_i d.moment_z_i).map (fun rows =>
    (List.zip (List.zip (List.zip rows.1 rows.2) (w_shear_y d))
        (locations d)).flatMap
      (fun vml => vml.2.map
        (fun x => x ^ 2 * (0.5 : ℚ) * vml.1.2 + x * vml.1.1.1 - vml.1.1.2)))

/-- A component assembly as consumed by `LoadCaseRegistry.self_mass`:
clear length, external nodes and internal nodes (the collaborator
interface of `BeamColumnAssembly`). -/
structure ComponentM where
  clear_length : ℚ
  external_nodes : List ℕ
  internal_nodes : List ℕ

/-- A load registry (load_case.py:158): nodal loads by node uid and
distributed loads by component uid, in insertion order. -/
structure LoadRegistryM where
  nodal_loads : List (ℕ × List ℚ)
  component_udl : List (ℕ × List ℚ)

/-- Accumulate a point mass into a mass-registry dict
(load_case.py:1032-1039 and 1048-1054): insert when the node is new,
otherwise add componentwise (Python `zip` truncates to the shorter
tuple, as `List.zipWith` does). -/
def accumulate_mass (reg : ℕ → Option (List ℚ)) (node_uid : ℕ)
    (point_mass : List ℚ) : ℕ → Option (List ℚ) :=
  match reg node_uid with
  | none => dictSet reg node_uid point_mass
  | some existing_mass =>
    dictSet reg node_uid (List.zipWith (· + ·) existing_mass point_mass)

/-- Embedding of `LoadCaseRegistry.self_mass` (load_case.py:995): for
each `(source case, factor)` pair, converts every component UDL of the
source into a point mass
`|udl[-1] * clear_length| * factor / g / len(external_nodes)`
accumulated onto every internal node of the component (failing the
`num_nodes > 0` assertion when a component has no external nodes), then
converts every nodal point load into `|load[-1] * factor / g|`
accumulated onto its own node.  `components` is the model's dict of
beam-column assemblies and `target0` the target case's mass registry
before the call. -/
def self_mass (components : ℕ → Option ComponentM)
    (source_load_cases : List (LoadRegistryM × ℚ)) (g_constant : ℚ)
    (target0 : ℕ → Option (List ℚ)) :
    Except String (ℕ → Option (List ℚ)) :=
  source_load_cases.foldlM (fun reg sf => do
    let reg ← sf.1.component_udl.foldlM (fun reg entry => do
      match components entry.1 with
      | none => Except.error "KeyError: component not found"
      | some component =>
        let length := component.clear_length
        let weight := |(entry.2.getLastD 0) * length|
        let num_nodes := component.external_nodes.length
        if num_nodes = 0 then
          Except.error "Invalid component: no external nodes."
        else
          let mass := weight * sf.2 / g_constant / (num_nodes : ℚ)
          let point_mass : List ℚ := [mass, mass, mass, 0, 0, 0]
          Except.ok (component.internal_nodes.foldl
            (fun reg node_uid => accumulate_mass reg node_uid point_mass)
            reg)) reg
    let reg := sf.1.nodal_loads.foldl (fun reg entry =>
      let mass := |(entry.2.getLastD 0) * sf.2 / g_constant|
      let point_mass : List ℚ := [mass, mass, mass, 0, 0, 0]
      accumulate_mass reg entry.1 point_mass) reg
    pure reg) target0

/-- A Python dict as an ordered association list with string keys. -/
abbrev PyDict (α : Type) := List (String × α)

/-- Python dict lookup: first (and, for a real dict, only) entry with
the given key. -/
def dict_lookup {α : Type} (d : PyDict α) (k : String) : Option α :=
  (d.find? (fun p => p.1 == k)).map Prod.snd

/-- Python dict union `d1 | d2`: the keys of `d1` in order with values
overridden by `d2` where present, followed by the keys of `d2` that are
not in `d1`, in order. -/
def dict_union {α : Type} (d1 d2 : PyDict α) : PyDict α :=
  d1.map (fun p =>
    match dict_lookup d2 p.1 with
    | some v => (p.1, v)
    | none => p) ++
  d2.filter (fun p => (dict_lookup d1 p.1).isNone)

/-- The six per-type load-case collections of `LoadCaseRegistry`
(load_case.py:956-971), each a name-keyed dict. -/
structure LoadCaseRegistryM (α : Type) where
  static : PyDict α
  modal : PyDict α
  seismic_elf : PyDict α
  seismic_rs : PyDict α
  seismic_transient : PyDict α
  other : PyDict α

/-- Embedding of `LoadCaseRegistry.get_load_cases` (load_case.py:1056):
the left-associated dict union
`static | modal | seismic_elf | seismic_rs | seismic_transient | other`. -/
def get_load_cases {α : Type} (r : LoadCaseRegistryM α) : PyDict α :=
  dict_union (dict_union (dict_union (dict_union
    (dict_union r.static r.modal) r.seismic_elf) r.seismic_rs)
    r.seismic_transient) r.other

/-- Embedding of the iteration of `LoadCaseRegistry.run`
(load_case.py:1098-1115): the cases executed, in order, are exactly the
values of `get_load_cases` (directory bookkeeping is an external
side effect and carries no result). -/
def registry_run {α : Type} (r : LoadCaseRegistryM α) : List α :=
  (get_load_cases r).map Prod.snd

/-- A modal load case as read by
`SeismicRSLoadCase.calculate_modal_participation_factors`: its
analysis's periods, one per completed mode. -/
structure ModalLoadCaseM where
  periods : List ℚ

/-- The per-mode result record `SeismicRSAnalysisResults`
(load_case.py:781). -/
structure SeismicRSAnalysisResultsM where
  gamma_n : List ℚ
  m_star : List ℚ
  vb_modal : List ℚ
  modal_q : List ℚ
  total_mass : ℚ

/-- The configuration state of a `SeismicRSLoadCase`
(load_case.py:792-799) that
`calculate_modal_participation_factors` validates. -/
structure SeismicRSLoadCaseM where
  design_spectrum : Option (List (ℚ × ℚ))
  direction : Option ℕ
  g_constant : Option ℚ
  linked_modal_load_case : Option ModalLoadCaseM

/-- Embedding of
`SeismicRSLoadCase.calculate_modal_participation_factors`
(load_case.py:824): the four configuration guards, in source order,
then the zero-completed-modes guard; only when every prerequisite is
present does the modal computation (the loop over modes, abstracted
here as `body` since its numeric content is not under test) run. -/
def calculate_modal_participation_factors (case : SeismicRSLoadCaseM)
    (body : ModalLoadCaseM → List (ℚ × ℚ) → ℕ → ℚ →
      SeismicRSAnalysisResultsM) :
    Except String SeismicRSAnalysisResultsM :=
  match case.linked_modal_load_case with
  | none =>
    .error "Seismic RS analysis requires linking to an existing modal load case."
  | some modal =>
    match case.design_spectrum with
    | none => .error "Seismic RS analysis requires a spectrum."
    | some spectrum =>
      match case.direction with
      | none =>
        .error "Seismic RS analysis requires an excitation direction to be set."
      | some direction =>
        match case.g_constant with
        | none =>
          .error "Seismic RS analysis requires G to be set (`g_constant`)."
        | some g =>
          if modal.periods.length = 0 then
            .error "Modal analysis has not been executed yet."
          else
            .ok (body modal spectrum direction g)

/-- The `EPSILON` comparison tolerance (common.py:21). -/
def EPSILON : ℚ := 1 / 1000000

/-- A node as consumed by `LoadCase.add_supports_at_level`: uid and
coordinates, the last coordinate being the elevation. -/
structure NodeM where
  uid : ℕ
  coordinates : List ℚ

/-- A support object, identified (as in the source's `isinstance`
dispatch) only by its concrete type; `otherSupport` carries the type
name used in the error message. -/
inductive SupportM
  | fixedSupport
  | elasticSupport
  | otherSupport (typeName : String)
deriving DecidableEq

/-- Embedding of `LoadCase.add_supports_at_level` (load_case.py:209):
walk the model's nodes; every node whose elevation (last coordinate)
is within `EPSILON` of the level's elevation (obtained from the grid
system, passed here as `level_elevation`) receives the support in
`fixed_supports` or `elastic_supports` according to its concrete type;
any other support type raises a `TypeError` naming it.  Returns the
updated `(fixed_supports, elastic_supports)` pair. -/
def add_supports_at_level
    (fixed_supports elastic_supports : ℕ → Option SupportM)
    (nodes : List NodeM) (level_elevation : ℚ) (support : SupportM) :
    Except String ((ℕ → Option SupportM) × (ℕ → Option SupportM)) :=
  nodes.foldlM (fun fe node =>
    if |node.coordinates.getLastD 0 - level_elevation| < EPSILON then
      match support with
      | .fixedSupport => .ok (dictSet fe.1 node.uid support, fe.2)
      | .elasticSupport => .ok (fe.1, dictSet fe.2 node.uid support)
      | .otherSupport typeName =>
        .error ("Unsupported object type: " ++ typeName)
    else .ok fe) (fixed_supports, elastic_supports)

/-- A Python exception raised during load-case construction. -/
inductive PyError
  | valueError (msg : String)
  | recursionError
deriving DecidableEq

/-- The six concrete load-case classes of load_case.py, plus the state
relevant to `__post_init__` dispatch. -/
inductive CaseClass
  | staticCase
  | modalCase
  | seismicELFCase
  | seismicRSCase
  | seismicTransientCase
  | otherCase
deriving DecidableEq

/-- The attributes touched during dataclass initialisation: the `model`
field (`none` models Python `None`) and the `_case_type` attribute
(`none` before any `__post_init__` assigns it). -/
structure CaseState where
  model : Option ℕ
  case_type : Option String
deriving DecidableEq

/-- The check in `HasModel.__post_init__` (load_case.py:172): raise
`ValueError('Model is a required attribute.')` when `model` is `None`.
Because Python resolves `self.__post_init__()` dynamically, this method
only runs for direct `HasModel` instances; none of the six concrete
case classes ever dispatches to it. -/
def has_model_check (st : CaseState) : Except PyError CaseState :=
  if st.model = none then
    .error (.valueError "Model is a required attribute.")
  else
    .ok st

/-- Dynamic dispatch of `self.__post_init__()` for an instance of the
given concrete class, with a call-depth budget `fuel` (Python's
recursion limit): `StaticLoadCase` and `ModalLoadCase` define their own
overrides; the three seismic variants inherit
`SeismicLoadCase.__post_init__`; `OtherLoadCase` defines none and
inherits `LoadCase.__post_init__` (load_case.py:195), which calls
`super().__init__()` — the dataclass-generated `HasModel.__init__`,
which resets `model` to its default `None` and then calls
`self.__post_init__()` again (consuming one unit of call depth) —
before setting `_case_type` to `'Undefined'`. -/
def post_init_loop (cls : CaseClass) : ℕ → CaseState →
    Except PyError CaseState
  | fuel, st =>
    match cls with
    | .staticCase => .ok { st with case_type := some "Static" }
    | .modalCase => .ok { st with case_type := some "Modal" }
    | .seismicELFCase | .seismicRSCase | .seismicTransientCase =>
      .ok { st with case_type := some "Seismic" }
    | .otherCase =>
      match fuel with
      | 0 => .error .recursionError
      | f + 1 =>
        (post_init_loop cls f { st with model := none }).map
          (fun st2 => { st2 with case_type := some "Undefined" })

/-- Constructing a concrete load case: the dataclass-generated
`__init__` stores the passed `model` (with `_case_type` not yet set)
and then invokes `self.__post_init__()`. -/
def construct_case (cls : CaseClass) (model : Option ℕ) (fuel : ℕ) :
    Except PyError CaseState :=
  post_init_loop cls fuel { model := model, case_type := none }

deriving instance DecidableEq for Except

/-- Concrete three-column, one-row result table used to exercise the
envelope combination. -/
def envelope_example_table : DataFrame :=
  { levelNames := ["element", "station"]
    columns := [["e", "s1"], ["e", "s2"], ["e", "s3"]]
    data := [[1, 2, 3]] }

/-- The float power primitive `b ** e` restricted to the natural-number
exponents arising in the concrete scenarios below. -/
def pow_nat_exp (b e : ℚ) : ℚ := b ^ e.num.toNat

/-! ### Theorems -/

theorem post_init_loop_otherCase_err (fuel : ℕ) (st : CaseState) :
    post_init_loop .otherCase fuel st = .error .recursionError := by
  induction fuel generalizing st with
  | zero => rfl
  | succ f ih => simp [post_init_loop, ih, Except.map]

/-- C1 (code bug evidence): evaluating `combine_single(x, x, 'envelope')`
on a one-row table `x` with the three columns `('e','s1') = 1`,
`('e','s2') = 2`, `('e','s3') = 3` does not return `x` duplicated under
`max` and `min`: the positional relabelling with
`MultiIndex.from_product` interleaves `max`/`min` as the innermost
level while the data blocks are concatenated max-block-first, so the
result holds the value 3 under `('e','s1','min')` even though both the
`min` and the `max` sub-table of the claim would hold 1 there. -/
theorem c1_envelope_mislabels_minmax :
    combine_single envelope_example_table envelope_example_table
        .envelope =
      .ok { levelNames := ["element", "station", "min/max"]
            columns := [["e", "s1", "max"], ["e", "s1", "min"],
                        ["e", "s2", "max"], ["e", "s2", "min"],
                        ["e", "s3", "max"], ["e", "s3", "min"]]
            data := [[1, 3, 2, 2, 1, 3]] } ∧
    (combine_single envelope_example_table envelope_example_table
        .envelope).toOption.map
      (fun df => dfLookup df 0 ["e", "s1", "min"]) = some 3 ∧
    dfLookup envelope_example_table 0 ["e", "s1"] = 1 ∧ (3 : ℚ) ≠ 1 := by
  have h : combine_single envelope_example_table envelope_example_table
      .envelope =
      .ok { levelNames := ["element", "station", "min/max"]
            columns := [["e", "s1", "max"], ["e", "s1", "min"],
                        ["e", "s2", "max"], ["e", "s2", "min"],
                        ["e", "s3", "max"], ["e", "s3", "min"]]
            data := [[1, 3, 2, 2, 1, 3]] } := by
    norm_num +decide [combine_single, envelope_example_table,
      ensure_minmax_level_exists_or_add, xsColumns, xsData, colPositions,
      selectRow, sortedDedup, insertSorted, List.range, List.range.loop,
      List.flatMap_cons]
  refine ⟨h, ?_, ?_, by norm_num⟩
  · rw [h]
    norm_num +decide [dfLookup, Except.toOption]
  · norm_num +decide [dfLookup, envelope_example_table]

/-- C9 (amended): constructing `StaticLoadCase`, `ModalLoadCase`,
`SeismicELFLoadCase`, `SeismicRSLoadCase` or `SeismicTransientLoadCase`
with `model=None` succeeds without raising, because the
`__post_init__` override each of them dispatches to never invokes the
`HasModel` check; `OtherLoadCase`, which defines no override and
inherits `LoadCase.__post_init__`, loops through
`HasModel.__init__` → `self.__post_init__()` forever and fails with a
`RecursionError` at every recursion-depth budget.  In all six cases the
`ValueError('Model is a required attribute.')` of
`HasModel.__post_init__` is never raised. -/
theorem c9_concrete_case_construction (model : Option ℕ) (fuel : ℕ) :
    construct_case .staticCase none fuel =
      .ok { model := none, case_type := some "Static" } ∧
    construct_case .modalCase none fuel =
      .ok { model := none, case_type := some "Modal" } ∧
    construct_case .seismicELFCase none fuel =
      .ok { model := none, case_type := some "Seismic" } ∧
    construct_case .seismicRSCase none fuel =
      .ok { model := none, case_type := some "Seismic" } ∧
    construct_case .seismicTransientCase none fuel =
      .ok { model := none, case_type := some "Seismic" } ∧
    construct_case .otherCase none fuel = .error .recursionError ∧
    (∀ cls msg,
      construct_case cls model fuel ≠ .error (.valueError msg)) := by
  refine ⟨?_, ?_, ?_, ?_, ?_, post_init_loop_otherCase_err fuel _, ?_⟩
  · simp [construct_case, post_init_loop]
  · simp [construct_case, post_init_loop]
  · simp [construct_case, post_init_loop]
  · simp [construct_case, post_init_loop]
  · simp [construct_case, post_init_loop]
  · intro cls msg
    cases cls <;>
      simp [construct_case, post_init_loop, post_init_loop_otherCase_err]

/-- C9 (counterexample to the claim as stated): constructing
`OtherLoadCase` with `model=None` does not succeed — with a
recursion-depth budget of 1000 the dataclass initialisation fails with
a `RecursionError` (and so it does at every budget). -/
theorem c9_other_case_raises :
    construct_case .otherCase none 1000 = .error .recursionError :=
  post_init_loop_otherCase_err 1000 _

theorem getD_zipWith_add (as bs : List ℚ) (i : ℕ) (h1 : i < as.length)
    (h2 : i < bs.length) :
    (List.zipWith (· + ·) as bs).getD i 0 = as.getD i 0 + bs.getD i 0 := by
  rw [List.getD_eq_getElem?_getD, List.getElem?_zipWith,
    List.getElem?_eq_getElem h1, List.getElem?_eq_getElem h2,
    List.getD_eq_getElem?_getD, List.getD_eq_getElem?_getD,
    List.getElem?_eq_getElem h1, List.getElem?_eq_getElem h2]
  rfl

theorem getD_zipWith_rows (as bs : List (List ℚ)) (r : ℕ)
    (h1 : r < as.length) (h2 : r < bs.length) :
    (List.zipWith (List.zipWith (· + ·)) as bs).getD r [] =
      List.zipWith (· + ·) (as.getD r []) (bs.getD r []) := by
  rw [List.getD_eq_getElem?_getD, List.getElem?_zipWith,
    List.getElem?_eq_getElem h1, List.getElem?_eq_getElem h2,
    List.getD_eq_getElem?_getD, List.getD_eq_getElem?_getD,
    List.getElem?_eq_getElem h1, List.getElem?_eq_getElem h2]
  rfl

/-- C6: `combine_single(a, b, 'add')` raises the dimension-mismatch
error exactly when the two column hierarchies differ in level names or
in column keys/order, and otherwise returns the element-wise sum of
the two tables (shown both as the summed table and cellwise). -/
theorem c6_combine_single_add_alignment (a b : DataFrame) :
    ((combine_single a b .add).isOk ↔
      (a.levelNames = b.levelNames ∧ a.columns = b.columns)) ∧
    ((a.levelNames ≠ b.levelNames ∨ a.columns ≠ b.columns) →
      combine_single a b .add =
        .error "Cannot align DataFrames with different columns") ∧
    (a.levelNames = b.levelNames → a.columns = b.columns →
      combine_single a b .add =
        .ok { levelNames := a.levelNames, columns := a.columns
              data := List.zipWith (List.zipWith (· + ·)) a.data b.data } ∧
      ∀ r c, r < a.data.length → r < b.data.length →
        c < (a.data.getD r []).length → c < (b.data.getD r []).length →
        ((List.zipWith (List.zipWith (· + ·)) a.data b.data).getD r []).getD
            c 0 =
          (a.data.getD r []).getD c 0 + (b.data.getD r []).getD c 0) := by
  by_cases hn : a.levelNames = b.levelNames <;>
    by_cases hc : a.columns = b.columns
  · refine ⟨?_, ?_, ?_⟩
    · simp [combine_single, hn, hc, Except.isOk, Except.toBool]
    · intro h
      rcases h with h | h <;> exact absurd (by assumption) h
    · intro _ _
      refine ⟨by simp [combine_single, hn, hc], ?_⟩
      intro r c hr1 hr2 hc1 hc2
      rw [getD_zipWith_rows a.data b.data r hr1 hr2,
        getD_zipWith_add _ _ c hc1 hc2]
  all_goals
    refine ⟨?_, ?_, ?_⟩
    · simp [combine_single, hn, hc, Except.isOk, Except.toBool]
    · intro _
      simp [combine_single, hn, hc]
    · intro h1 h2
      first
        | exact absurd h1 hn
        | exact absurd h2 hc

/-- C6 witness: identical single-column hierarchies sum cellwise
(`1 + 2 = 3` in the only cell) and are accepted, while changing one
level name makes `combine_single(·, ·, 'add')` raise the
dimension-mismatch error. -/
theorem c6_combine_single_add_alignment_witness :
    combine_single
        { levelNames := ["element"], columns := [["e"]], data := [[1]] }
        { levelNames := ["element"], columns := [["e"]], data := [[2]] }
        .add =
      .ok { levelNames := ["element"], columns := [["e"]],
            data := [[(3 : ℚ)]] } ∧
    combine_single
        { levelNames := ["element"], columns := [["e"]], data := [[1]] }
        { levelNames := ["node"], columns := [["e"]], data := [[2]] }
        .add =
      .error "Cannot align DataFrames with different columns" := by
  constructor
  · have h := ((c6_combine_single_add_alignment
      { levelNames := ["element"], columns := [["e"]], data := [[1]] }
      { levelNames := ["element"], columns := [["e"]], data := [[2]] }).2.2
      rfl rfl).1
    rw [h]
    norm_num
  · exact (c6_combine_single_add_alignment
      { levelNames := ["element"], columns := [["e"]], data := [[1]] }
      { levelNames := ["node"], columns := [["e"]], data := [[2]] }).2.1
      (Or.inl (by decide))

/-- C7: `calculate_modal_participation_factors` succeeds exactly when
the linked modal case, design spectrum, excitation direction and `g`
constant are all set and the modal analysis has at least one completed
mode; each missing prerequisite, checked in source order before the
modal computation is ever consulted, raises its own distinct
configuration error naming that prerequisite. -/
theorem c7_modal_participation_guards (case : SeismicRSLoadCaseM)
    (body : ModalLoadCaseM → List (ℚ × ℚ) → ℕ → ℚ →
      SeismicRSAnalysisResultsM) :
    ((∃ r, calculate_modal_participation_factors case body = .ok r) ↔
      (case.linked_modal_load_case ≠ none ∧ case.design_spectrum ≠ none ∧
        case.direction ≠ none ∧ case.g_constant ≠ none ∧
        (∀ m, case.linked_modal_load_case = some m → m.periods ≠ []))) ∧
    (case.linked_modal_load_case = none →
      calculate_modal_participation_factors case body =
        .error
          "Seismic RS analysis requires linking to an existing modal load case.") ∧
    (case.linked_modal_load_case ≠ none → case.design_spectrum = none →
      calculate_modal_participation_factors case body =
        .error "Seismic RS analysis requires a spectrum.") ∧
    (case.linked_modal_load_case ≠ none → case.design_spectrum ≠ none →
      case.direction = none →
      calculate_modal_participation_factors case body =
        .error
          "Seismic RS analysis requires an excitation direction to be set.") ∧
    (case.linked_modal_load_case ≠ none → case.design_spectrum ≠ none →
      case.direction ≠ none → case.g_constant = none →
      calculate_modal_participation_factors case body =
        .error "Seismic RS analysis requires G to be set (`g_constant`).") ∧
    (∀ m, case.linked_modal_load_case = some m → case.design_spectrum ≠ none →
      case.direction ≠ none → case.g_constant ≠ none → m.periods = [] →
      calculate_modal_participation_factors case body =
        .error "Modal analysis has not been executed yet.") ∧
    (["Seismic RS analysis requires linking to an existing modal load case.",
      "Seismic RS analysis requires a spectrum.",
      "Seismic RS analysis requires an excitation direction to be set.",
      "Seismic RS analysis requires G to be set (`g_constant`).",
      "Modal analysis has not been executed yet."] : List String).Nodup := by
  obtain ⟨spec, dir, g, linked⟩ := case
  refine ⟨?_, ?_, ?_, ?_, ?_, ?_, by decide⟩
  · cases linked with
    | none => simp [calculate_modal_participation_factors]
    | some m =>
      cases spec with
      | none => simp [calculate_modal_participation_factors]
      | some s =>
        cases dir with
        | none => simp [calculate_modal_participation_factors]
        | some d =>
          cases g with
          | none => simp [calculate_modal_participation_factors]
          | some gv =>
            by_cases hp : m.periods = []
            · simp [calculate_modal_participation_factors, hp]
            · simp [calculate_modal_participation_factors, hp,
                List.length_eq_zero]
  · intro h
    subst h
    rfl
  · intro h1 h2
    subst h2
    cases linked with
    | none => exact absurd rfl h1
    | some m => rfl
  · intro h1 h2 h3
    subst h3
    cases linked with
    | none => exact absurd rfl h1
    | some m =>
      cases spec with
      | none => exact absurd rfl h2
      | some s => rfl
  · intro h1 h2 h3 h4
    subst h4
    cases linked with
    | none => exact absurd rfl h1
    | some m =>
      cases spec with
      | none => exact absurd rfl h2
      | some s =>
        cases dir with
        | none => exact absurd rfl h3
        | some d => rfl
  · intro m hm h2 h3 h4 hp
    subst hm
    cases spec with
    | none => exact absurd rfl h2
    | some s =>
      cases dir with
      | none => exact absurd rfl h3
      | some d =>
        cases g with
        | none => exact absurd rfl h4
        | some gv => simp [calculate_modal_participation_factors, hp]

/-- C7 witness: with nothing configured the linking error is raised,
and with a spectrum, direction, `g` constant, linked modal case and one
completed mode the computation succeeds. -/
theorem c7_modal_participation_guards_witness :
    calculate_modal_participation_factors
        { design_spectrum := none, direction := none, g_constant := none,
          linked_modal_load_case := none }
        (fun _ _ _ _ => { gamma_n := [], m_star := [], vb_modal := [],
                          modal_q := [], total_mass := 0 }) =
      .error
        "Seismic RS analysis requires linking to an existing modal load case." ∧
    (calculate_modal_participation_factors
        { design_spectrum := some [(1, 1)], direction := some 0,
          g_constant := some 386, linked_modal_load_case := some ⟨[1]⟩ }
        (fun _ _ _ _ => { gamma_n := [], m_star := [], vb_modal := [],
                          modal_q := [], total_mass := 0 })).isOk = true := by
  constructor
  · exact (c7_modal_participation_guards _ _).2.1 rfl
  · obtain ⟨r, hr⟩ := ((c7_modal_participation_guards
      { design_spectrum := some [(1, 1)], direction := some 0,
        g_constant := some 386, linked_modal_load_case := some ⟨[1]⟩ }
      (fun _ _ _ _ => { gamma_n := [], m_star := [], vb_modal := [],
                        modal_q := [], total_mass := 0 })).1).mpr
      ⟨by simp, by simp, by simp, by simp, by
        intro m hm
        cases hm
        simp⟩
    rw [hr]
    rfl

theorem supports_foldl_cases (nodes : List NodeM) (lev : ℚ)
    (sup : SupportM) (fs : ℕ → Option SupportM) (uid : ℕ) :
    nodes.foldl (fun f node =>
        if |node.coordinates.getLastD 0 - lev| < EPSILON then
          dictSet f node.uid sup
        else f) fs uid = fs uid ∨
      nodes.foldl (fun f node =>
        if |node.coordinates.getLastD 0 - lev| < EPSILON then
          dictSet f node.uid sup
        else f) fs uid = some sup := by
  induction nodes generalizing fs with
  | nil => exact Or.inl rfl
  | cons n ns ih =>
    simp only [List.foldl_cons]
    rcases ih (if |n.coordinates.getLastD 0 - lev| < EPSILON then
        dictSet fs n.uid sup else fs) with h | h
    · rw [h]
      by_cases hc : |n.coordinates.getLastD 0 - lev| < EPSILON
      · rw [if_pos hc]
        unfold dictSet
        by_cases hu : uid = n.uid
        · exact Or.inr (by simp [hu])
        · exact Or.inl (by simp [hu])
      · exact Or.inl (by rw [if_neg hc])
    · exact Or.inr h

theorem supports_foldl_of_match (nodes : List NodeM) (lev : ℚ)
    (sup : SupportM) (fs : ℕ → Option SupportM) (node : NodeM)
    (hmem : node ∈ nodes)
    (hmatch : |node.coordinates.getLastD 0 - lev| < EPSILON) :
    nodes.foldl (fun f nd =>
        if |nd.coordinates.getLastD 0 - lev| < EPSILON then
          dictSet f nd.uid sup
        else f) fs node.uid = some sup := by
  induction nodes generalizing fs with
  | nil => cases hmem
  | cons n ns ih =>
    simp only [List.foldl_cons]
    rcases List.mem_cons.mp hmem with hn | hn
    · subst hn
      rw [if_pos hmatch]
      rcases supports_foldl_cases ns lev sup (dictSet fs node.uid sup)
        node.uid with h | h
      · rw [h]
        simp [dictSet]
      · exact h
    · exact ih _ hn

theorem supports_foldl_of_no_match (nodes : List NodeM) (lev : ℚ)
    (sup : SupportM) (fs : ℕ → Option SupportM) (uid : ℕ)
    (hno : ∀ node ∈ nodes, node.uid = uid →
      ¬(|node.coordinates.getLastD 0 - lev| < EPSILON)) :
    nodes.foldl (fun f nd =>
        if |nd.coordinates.getLastD 0 - lev| < EPSILON then
          dictSet f nd.uid sup
        else f) fs uid = fs uid := by
  induction nodes generalizing fs with
  | nil => rfl
  | cons n ns ih =>
    simp only [List.foldl_cons]
    rw [ih _ (fun node h => hno node (List.mem_cons_of_mem n h))]
    by_cases hc : |n.coordinates.getLastD 0 - lev| < EPSILON
    · rw [if_pos hc]
      have hne : uid ≠ n.uid := fun h =>
        hno n (List.mem_cons_self n ns) h.symm hc
      simp [dictSet, hne]
    · rw [if_neg hc]

theorem add_supports_fixed_eq (fs es : ℕ → Option SupportM)
    (nodes : List NodeM) (lev : ℚ) :
    add_supports_at_level fs es nodes lev .fixedSupport =
      .ok (nodes.foldl (fun f node =>
        if |node.coordinates.getLastD 0 - lev| < EPSILON then
          dictSet f node.uid .fixedSupport
        else f) fs, es) := by
  induction nodes generalizing fs with
  | nil => rfl
  | cons n ns ih =>
    by_cases hc : |n.coordinates.getLastD 0 - lev| < EPSILON <;>
      simp only [add_supports_at_level, List.foldlM_cons, List.foldl_cons,
        if_pos, if_neg, hc, if_true, if_false, reduceIte] <;>
      exact ih _

theorem add_supports_elastic_eq (fs es : ℕ → Option SupportM)
    (nodes : List NodeM) (lev : ℚ) :
    add_supports_at_level fs es nodes lev .elasticSupport =
      .ok (fs, nodes.foldl (fun f node =>
        if |node.coordinates.getLastD 0 - lev| < EPSILON then
          dictSet f node.uid .elasticSupport
        else f) es) := by
  induction nodes generalizing es with
  | nil => rfl
  | cons n ns ih =>
    by_cases hc : |n.coordinates.getLastD 0 - lev| < EPSILON <;>
      simp only [add_supports_at_level, List.foldlM_cons, List.foldl_cons,
        if_pos, if_neg, hc, if_true, if_false, reduceIte] <;>
      exact ih _

theorem add_supports_other_split (fs es : ℕ → Option SupportM)
    (nodes : List NodeM) (lev : ℚ) (t : String) :
    ((∃ node ∈ nodes, |node.coordinates.getLastD 0 - lev| < EPSILON) →
      add_supports_at_level fs es nodes lev (.otherSupport t) =
        .error ("Unsupported object type: " ++ t)) ∧
    ((∀ node ∈ nodes, ¬(|node.coordinates.getLastD 0 - lev| < EPSILON)) →
      add_supports_at_level fs es nodes lev (.otherSupport t) =
        .ok (fs, es)) := by
  induction nodes with
  | nil =>
    refine ⟨?_, ?_⟩
    · rintro ⟨node, hmem, -⟩
      cases hmem
    · intro _
      rfl
  | cons n ns ih =>
    by_cases hc : |n.coordinates.getLastD 0 - lev| < EPSILON
    · refine ⟨?_, ?_⟩
      · intro _
        simp only [add_supports_at_level, List.foldlM_cons, if_pos hc]
        rfl
      · intro hall
        exact absurd hc (hall n (List.mem_cons_self n ns))
    · refine ⟨?_, ?_⟩
      · rintro ⟨node, hmem, hm⟩
        rcases List.mem_cons.mp hmem with hn | hn
        · exact absurd hm (hn ▸ hc)
        · simp only [add_supports_at_level, List.foldlM_cons, if_neg hc]
          exact ih.1 ⟨node, hn, hm⟩
      · intro hall
        simp only [add_supports_at_level, List.foldlM_cons, if_neg hc]
        exact ih.2 (fun node h => hall node (List.mem_cons_of_mem n h))

/-- C8: `add_supports_at_level` assigns the support to exactly the
nodes whose last coordinate differs from the level elevation by
strictly less than `EPSILON = 1e-6`: a `FixedSupport` goes into
`fixed_supports` (leaving `elastic_supports` untouched), an
`ElasticSupport` into `elastic_supports` (leaving `fixed_supports`
untouched), entries of non-matching nodes are unchanged, and any other
support type raises a `TypeError` naming the received type as soon as
some node matches. -/
theorem c8_add_supports_at_level (fs es : ℕ → Option SupportM)
    (nodes : List NodeM) (lev : ℚ) :
    (∃ fs2, add_supports_at_level fs es nodes lev .fixedSupport =
        .ok (fs2, es) ∧
      (∀ node ∈ nodes, |node.coordinates.getLastD 0 - lev| < EPSILON →
        fs2 node.uid = some .fixedSupport) ∧
      (∀ uid, (∀ node ∈ nodes, node.uid = uid →
          ¬(|node.coordinates.getLastD 0 - lev| < EPSILON)) →
        fs2 uid = fs uid)) ∧
    (∃ es2, add_supports_at_level fs es nodes lev .elasticSupport =
        .ok (fs, es2) ∧
      (∀ node ∈ nodes, |node.coordinates.getLastD 0 - lev| < EPSILON →
        es2 node.uid = some .elasticSupport) ∧
      (∀ uid, (∀ node ∈ nodes, node.uid = uid →
          ¬(|node.coordinates.getLastD 0 - lev| < EPSILON)) →
        es2 uid = es uid)) ∧
    (∀ t,
      ((∃ node ∈ nodes, |node.coordinates.getLastD 0 - lev| < EPSILON) →
        add_supports_at_level fs es nodes lev (.otherSupport t) =
          .error ("Unsupported object type: " ++ t)) ∧
      ((∀ node ∈ nodes, ¬(|node.coordinates.getLastD 0 - lev| < EPSILON)) →
        add_supports_at_level fs es nodes lev (.otherSupport t) =
          .ok (fs, es))) ∧
    EPSILON = 1 / 1000000 := by
  refine ⟨?_, ?_, ?_, rfl⟩
  · refine ⟨_, add_supports_fixed_eq fs es nodes lev, ?_, ?_⟩
    · exact fun node hmem hmatch =>
        supports_foldl_of_match nodes lev .fixedSupport fs node hmem hmatch
    · exact fun uid hno =>
        supports_foldl_of_no_match nodes lev .fixedSupport fs uid hno
  · refine ⟨_, add_supports_elastic_eq fs es nodes lev, ?_, ?_⟩
    · exact fun node hmem hmatch =>
        supports_foldl_of_match nodes lev .elasticSupport es node hmem hmatch
    · exact fun uid hno =>
        supports_foldl_of_no_match nodes lev .elasticSupport es uid hno
  · exact fun t => add_supports_other_split fs es nodes lev t

/-- C8 witness: at level elevation 10, a node at `10 + 1e-7` receives
the fixed support while a node at `10 + 1e-5` does not, and the
elastic-support dict is untouched. -/
theorem c8_add_supports_at_level_witness :
    (add_supports_at_level (fun _ => none) (fun _ => none)
        [⟨1, [10 + 1 / 10000000]⟩, ⟨2, [10 + 1 / 100000]⟩] 10
        .fixedSupport).map (fun fe => (fe.1 1, fe.1 2, fe.2 1)) =
      .ok (some .fixedSupport, none, none) := by
  obtain ⟨fs2, heq, hmem, hpres⟩ :=
    (c8_add_supports_at_level (fun _ => none) (fun _ => none)
      [⟨1, [10 + 1 / 10000000]⟩, ⟨2, [10 + 1 / 100000]⟩] 10).1
  rw [heq]
  have h1 : fs2 1 = some .fixedSupport := by
    have := hmem ⟨1, [10 + 1 / 10000000]⟩ (by simp) (by
      norm_num [List.getLastD, EPSILON, abs_lt])
    exact this
  have h2 : fs2 2 = none := by
    have := hpres 2 (by
      intro node hm hu
      rcases List.mem_cons.mp hm with rfl | hm2
      · simp at hu
      · rcases List.mem_cons.mp hm2 with rfl | hm3
        · norm_num [List.getLastD, EPSILON, abs_lt]
        · cases hm3)
    exact this
  simp [Except.map, h1, h2]

theorem interp_segment_bounds (x0 x1 x y0 y1 q : ℚ) (h0 : x0 < x)
    (h1 : x ≤ x1) :
    (q ≤ y0 → q ≤ y1 → q ≤ y0 + (x - x0) * (y1 - y0) / (x1 - x0)) ∧
    (y0 ≤ q → y1 ≤ q → y0 + (x - x0) * (y1 - y0) / (x1 - x0) ≤ q) := by
  have hx01 : x0 < x1 := lt_of_lt_of_le h0 h1
  have hne : x1 - x0 ≠ 0 := by linarith
  have hval : y0 + (x - x0) * (y1 - y0) / (x1 - x0) =
      y0 + (x - x0) / (x1 - x0) * (y1 - y0) := by ring
  have ht0 : 0 < (x - x0) / (x1 - x0) := div_pos (by linarith) (by linarith)
  have ht1 : (x - x0) / (x1 - x0) ≤ 1 :=
    (div_le_one (by linarith)).mpr (by linarith)
  constructor
  · intro hq0 hq1
    rw [hval]
    nlinarith [mul_nonneg (sub_nonneg.mpr ht1)
        (sub_nonneg.mpr hq0),
      mul_nonneg ht0.le (sub_nonneg.mpr hq1)]
  · intro hq0 hq1
    rw [hval]
    nlinarith [mul_nonneg (sub_nonneg.mpr ht1)
        (sub_nonneg.mpr hq0),
      mul_nonneg ht0.le (sub_nonneg.mpr hq1)]

theorem np_interp_lower_bound (spectrum : List (ℚ × ℚ)) (period q : ℚ)
    (hne : spectrum ≠ [])
    (hsorted : spectrum.Pairwise (fun p r => p.1 < r.1))
    (hq : ∀ y ∈ spectrum.map Prod.snd, q ≤ y) :
    q ≤ np_interp period spectrum := by
  induction spectrum with
  | nil => exact absurd rfl hne
  | cons p0 rest ih =>
    cases rest with
    | nil =>
      obtain ⟨x0, y0⟩ := p0
      exact hq y0 (by simp)
    | cons p1 rest2 =>
      obtain ⟨x0, y0⟩ := p0
      obtain ⟨x1, y1⟩ := p1
      rw [np_interp]
      by_cases hc0 : period ≤ x0
      · rw [if_pos hc0]
        exact hq y0 (by simp)
      · rw [if_neg hc0]
        by_cases hc1 : period ≤ x1
        · rw [if_pos hc1]
          exact (interp_segment_bounds x0 x1 period y0 y1 q
            (lt_of_not_le hc0) hc1).1 (hq y0 (by simp)) (hq y1 (by simp))
        · rw [if_neg hc1]
          exact ih (by simp) (List.Pairwise.of_cons hsorted)
            (fun y hy => hq y (by simp at hy ⊢; tauto))

theorem np_interp_upper_bound (spectrum : List (ℚ × ℚ)) (period q : ℚ)
    (hne : spectrum ≠ [])
    (hsorted : spectrum.Pairwise (fun p r => p.1 < r.1))
    (hq : ∀ y ∈ spectrum.map Prod.snd, y ≤ q) :
    np_interp period spectrum ≤ q := by
  induction spectrum with
  | nil => exact absurd rfl hne
  | cons p0 rest ih =>
    cases rest with
    | nil =>
      obtain ⟨x0, y0⟩ := p0
      exact hq y0 (by simp)
    | cons p1 rest2 =>
      obtain ⟨x0, y0⟩ := p0
      obtain ⟨x1, y1⟩ := p1
      rw [np_interp]
      by_cases hc0 : period ≤ x0
      · rw [if_pos hc0]
        exact hq y0 (by simp)
      · rw [if_neg hc0]
        by_cases hc1 : period ≤ x1
        · rw [if_pos hc1]
          exact (interp_segment_bounds x0 x1 period y0 y1 q
            (lt_of_not_le hc0) hc1).2 (hq y0 (by simp)) (hq y1 (by simp))
        · rw [if_neg hc1]
          exact ih (by simp) (List.Pairwise.of_cons hsorted)
            (fun y hy => hq y (by simp at hy ⊢; tauto))

theorem pairwise_head_le_getLast (l : List (ℚ × ℚ)) (p : ℚ × ℚ)
    (hs : (p :: l).Pairwise (fun a b => a.1 < b.1)) :
    p.1 ≤ ((p :: l).getLast (by simp)).1 := by
  cases l with
  | nil => simp
  | cons q rest =>
    rw [List.getLast_cons (by simp)]
    exact le_of_lt ((List.pairwise_cons.mp hs).1 _
      (List.getLast_mem (by simp)))

theorem np_interp_right_clamp (spectrum : List (ℚ × ℚ)) (period : ℚ)
    (hne : spectrum ≠ [])
    (hsorted : spectrum.Pairwise (fun p r => p.1 < r.1))
    (hout : (spectrum.getLast hne).1 ≤ period) :
    np_interp period spectrum = (spectrum.getLast hne).2 := by
  induction spectrum with
  | nil => exact absurd rfl hne
  | cons p0 rest ih =>
    cases rest with
    | nil =>
      obtain ⟨x0, y0⟩ := p0
      rfl
    | cons p1 rest2 =>
      obtain ⟨x0, y0⟩ := p0
      obtain ⟨x1, y1⟩ := p1
      rw [List.getLast_cons (by simp)] at hout ⊢
      have hx01 : x0 < x1 :=
        (List.pairwise_cons.mp hsorted).1 (x1, y1) (by simp)
      have hx1last : x1 ≤ (((x1, y1) :: rest2).getLast (by simp)).1 :=
        pairwise_head_le_getLast rest2 (x1, y1)
          (List.Pairwise.of_cons hsorted)
      have hperiod : x1 ≤ period := le_trans hx1last hout
      rw [np_interp]
      rw [if_neg (by push_neg; exact lt_of_lt_of_le hx01 hperiod)]
      by_cases hc1 : period ≤ x1
      · have heq : period = x1 := le_antisymm hc1 hperiod
        rw [if_pos hc1]
        cases rest2 with
        | nil =>
          simp only [List.getLast_singleton]
          rw [heq]
          have hne01 : x1 - x0 ≠ 0 := by linarith
          field_simp
        | cons p2 rest3 =>
          exfalso
          have hlt : x1 < (((x1, y1) :: p2 :: rest3).getLast (by simp)).1 := by
            rw [List.getLast_cons (by simp)]
            exact (List.pairwise_cons.mp
              (List.Pairwise.of_cons hsorted)).1 _
              (List.getLast_mem (by simp))
          exact absurd (le_trans hout hc1) (not_le.mpr hlt)
      · rw [if_neg hc1]
        exact ih (by simp) (List.Pairwise.of_cons hsorted) hout

theorem np_interp_left_clamp (spectrum : List (ℚ × ℚ)) (period : ℚ)
    (hne : spectrum ≠ []) (hout : period ≤ spectrum.headI.1) :
    np_interp period spectrum = spectrum.headI.2 := by
  cases spectrum with
  | nil => exact absurd rfl hne
  | cons p0 rest =>
    cases rest with
    | nil =>
      obtain ⟨x0, y0⟩ := p0
      rfl
    | cons p1 rest2 =>
      obtain ⟨x0, y0⟩ := p0
      obtain ⟨x1, y1⟩ := p1
      simp only [List.headI] at hout ⊢
      rw [np_interp, if_pos hout]

/-- C10: `interpolate_spectrum` clamps out-of-range queries to the
nearest tabulated endpoint — a period at or left of the first tabulated
period returns the first Sa, one at or right of the last returns the
last Sa — and for every query the returned value lies between any lower
and any upper bound of the tabulated Sa values; in particular it is
non-negative whenever every tabulated Sa is. -/
theorem c10_interpolate_spectrum_clamps (spectrum : List (ℚ × ℚ))
    (period : ℚ) (hne : spectrum ≠ [])
    (hsorted : spectrum.Pairwise (fun p r => p.1 < r.1)) :
    (period ≤ spectrum.headI.1 →
      interpolate_spectrum spectrum period = spectrum.headI.2) ∧
    ((spectrum.getLast hne).1 ≤ period →
      interpolate_spectrum spectrum period = (spectrum.getLast hne).2) ∧
    (∀ q, (∀ y ∈ spectrum.map Prod.snd, q ≤ y) →
      q ≤ interpolate_spectrum spectrum period) ∧
    (∀ q, (∀ y ∈ spectrum.map Prod.snd, y ≤ q) →
      interpolate_spectrum spectrum period ≤ q) ∧
    ((∀ y ∈ spectrum.map Prod.snd, 0 ≤ y) →
      0 ≤ interpolate_spectrum spectrum period) := by
  refine ⟨fun h => np_interp_left_clamp spectrum period hne h,
    fun h => np_interp_right_clamp spectrum period hne hsorted h,
    fun q hq => np_interp_lower_bound spectrum period q hne hsorted hq,
    fun q hq => np_interp_upper_bound spectrum period q hne hsorted hq,
    fun h => np_interp_lower_bound spectrum period 0 hne hsorted h⟩

/-- C10 witness: for the two-point spectrum `(1, 2), (3, 5)` the query
at period 10 clamps to 5, the query at period -1 clamps to 2, and the
interpolated value at period 2 is non-negative. -/
theorem c10_interpolate_spectrum_clamps_witness :
    interpolate_spectrum [(1, 2), (3, 5)] 10 = 5 ∧
    interpolate_spectrum [(1, 2), (3, 5)] (-1) = 2 ∧
    0 ≤ interpolate_spectrum [(1, 2), (3, 5)] 2 := by
  have hne : ([(1, 2), (3, 5)] : List (ℚ × ℚ)) ≠ [] := by simp
  have hs : ([(1, 2), (3, 5)] : List (ℚ × ℚ)).Pairwise
      (fun p r => p.1 < r.1) := by
    norm_num [List.pairwise_cons]
  refine ⟨?_, ?_, ?_⟩
  · have h := (c10_interpolate_spectrum_clamps [(1, 2), (3, 5)] 10 hne
      hs).2.1 (by norm_num [List.getLast])
    rw [h]
    rfl
  · have h := (c10_interpolate_spectrum_clamps [(1, 2), (3, 5)] (-1) hne
      hs).1 (by norm_num [List.headI])
    rw [h]
    rfl
  · exact (c10_interpolate_spectrum_clamps [(1, 2), (3, 5)] 2 hne
      hs).2.2.2.2 (by
        intro y hy
        simp at hy
        rcases hy with rfl | rfl <;> norm_num)

theorem find?_filter_of_imp {α : Type} (l : List α) (p f : α → Bool)
    (h : ∀ x ∈ l, p x = true → f x = true) :
    (l.filter f).find? p = l.find? p := by
  induction l with
  | nil => rfl
  | cons a t ih =>
    by_cases hf : f a = true
    · rw [List.filter_cons_of_pos hf, List.find?_cons, List.find?_cons]
      cases hp : p a
      · exact ih (fun x hx => h x (List.mem_cons_of_mem a hx))
      · rfl
    · have hp : p a = false := by
        cases hp : p a
        · rfl
        · exact absurd (h a (List.mem_cons_self a t) hp) hf
      rw [List.filter_cons_of_neg (by simp [hf]), List.find?_cons, hp]
      exact ih (fun x hx => h x (List.mem_cons_of_mem a hx))

theorem find?_filter_none {α : Type} (l : List α) (p f : α → Bool)
    (h : ∀ x ∈ l, p x = true → f x = false) :
    (l.filter f).find? p = none := by
  rw [List.find?_eq_none]
  intro x hx
  have hmem := List.mem_of_mem_filter hx
  have hfx := List.of_mem_filter hx
  intro hp
  rw [h x hmem hp] at hfx
  cases hfx

theorem find?_map_key_preserving {α : Type} (d : PyDict α)
    (g : String × α → String × α) (hg : ∀ p, (g p).1 = p.1) (k : String) :
    (d.map g).find? (fun p => p.1 == k) =
      (d.find? (fun p => p.1 == k)).map g := by
  induction d with
  | nil => rfl
  | cons a t ih =>
    rw [List.map_cons, List.find?_cons, List.find?_cons, hg a]
    cases hp : (a.1 == k)
    · exact ih
    · rfl

theorem dict_lookup_eq_none_iff {α : Type} (d : PyDict α) (k : String) :
    dict_lookup d k = none ↔ k ∉ d.map Prod.fst := by
  unfold dict_lookup
  rw [Option.map_eq_none', List.find?_eq_none]
  constructor
  · intro h hk
    obtain ⟨p, hp, hpk⟩ := List.mem_map.mp hk
    exact h p hp (by simp [hpk])
  · intro h p hp hpk
    exact h (List.mem_map.mpr ⟨p, hp, by simpa using hpk⟩)

theorem dict_lookup_union {α : Type} (d1 d2 : PyDict α) (k : String) :
    dict_lookup (dict_union d1 d2) k =
      (dict_lookup d2 k).or (dict_lookup d1 k) := by
  show ((dict_union d1 d2).find? (fun p => p.1 == k)).map Prod.snd =
    (dict_lookup d2 k).or (dict_lookup d1 k)
  unfold dict_union
  rw [List.find?_append, find?_map_key_preserving d1 _
    (fun p => by cases hl : dict_lookup d2 p.1 <;> simp [hl]) k]
  cases h1 : (d1.find? (fun p => p.1 == k)) with
  | some p =>
    have hpk : p.1 = k := by simpa using List.find?_some h1
    have hlook1 : dict_lookup d1 k = some p.2 := by
      unfold dict_lookup
      rw [h1, Option.map_some']
    rw [Option.map_some', Option.or_some, Option.map_some']
    cases h2 : dict_lookup d2 k with
    | some v =>
      rw [hpk, h2, Option.or_some]
    | none =>
      rw [hpk, h2, Option.none_or]
      exact hlook1.symm
  | none =>
    have hknot : k ∉ d1.map Prod.fst := by
      intro hk
      obtain ⟨p, hp, hpk⟩ := List.mem_map.mp hk
      rw [List.find?_eq_none] at h1
      exact h1 p hp (by simp [hpk])
    have hlook1 : dict_lookup d1 k = none := by
      unfold dict_lookup
      rw [h1, Option.map_none']
    rw [hlook1, Option.or_none, Option.map_none', Option.none_or]
    rw [find?_filter_of_imp d2 _ _ (fun p hp hpk => by
      have hp1 : p.1 = k := by simpa using hpk
      rw [hp1, hlook1]
      rfl)]
    rfl

theorem dict_union_keys_nodup {α : Type} (d1 d2 : PyDict α)
    (h1 : (d1.map Prod.fst).Nodup) (h2 : (d2.map Prod.fst).Nodup) :
    ((dict_union d1 d2).map Prod.fst).Nodup := by
  unfold dict_union
  rw [List.map_append, List.nodup_append]
  have hkeys1 : (d1.map (fun p =>
      match dict_lookup d2 p.1 with
      | some v => (p.1, v)
      | none => p)).map Prod.fst = d1.map Prod.fst := by
    rw [List.map_map]
    apply List.map_congr_left
    intro p _
    cases hl : dict_lookup d2 p.1 <;> simp [hl]
  refine ⟨by rw [hkeys1]; exact h1, ?_, ?_⟩
  · exact List.Nodup.sublist
      (List.Sublist.map _ (List.filter_sublist d2)) h2
  · intro k hk1 hk2
    rw [hkeys1] at hk1
    obtain ⟨p, hp, hpk⟩ := List.mem_map.mp hk2
    have hkeep := List.of_mem_filter hp
    rw [Option.isNone_iff_eq_none, dict_lookup_eq_none_iff] at hkeep
    exact hkeep (hpk ▸ hk1)

theorem mem_dict_union_entry {α : Type} (d1 d2 : PyDict α)
    (p : String × α) (h : p ∈ dict_union d1 d2) :
    p.2 ∈ d2.map Prod.snd ∨
      (∃ q ∈ d1, p.1 = q.1 ∧ p.2 = q.2 ∧ dict_lookup d2 q.1 = none) := by
  unfold dict_union at h
  rcases List.mem_append.mp h with h | h
  · obtain ⟨q, hq, hqe⟩ := List.mem_map.mp h
    cases hl : dict_lookup d2 q.1 with
    | some v =>
      rw [hl] at hqe
      subst hqe
      left
      obtain ⟨e, he, hev⟩ := Option.map_eq_some'.mp hl
      exact List.mem_map.mpr ⟨e, List.mem_of_find?_eq_some he, hev⟩
    | none =>
      rw [hl] at hqe
      subst hqe
      right
      exact ⟨q, hq, rfl, rfl, hl⟩
  · left
    exact List.mem_map.mpr ⟨p, List.mem_of_mem_filter h, rfl⟩

theorem dict_lookup_mem_snd {α : Type} (d : PyDict α) (k : String) (v : α)
    (h : dict_lookup d k = some v) : v ∈ d.map Prod.snd := by
  obtain ⟨e, he, hev⟩ := Option.map_eq_some'.mp h
  exact List.mem_map.mpr ⟨e, List.mem_of_find?_eq_some he, hev⟩

/-- C5: when the same name is registered in two collections (here a
static and a modal case), the dict union in `get_load_cases` keeps a
single entry for that name whose value comes from the collection merged
last (the modal one), so `LoadCaseRegistry.run` — which iterates
`get_load_cases` — executes that case and never the shadowed one. -/
theorem c5_get_load_cases_shadowing {α : Type} (r : LoadCaseRegistryM α)
    (name : String) (cs cm : α)
    (hstatic : dict_lookup r.static name = some cs)
    (hmodal : dict_lookup r.modal name = some cm)
    (h3 : dict_lookup r.seismic_elf name = none)
    (h4 : dict_lookup r.seismic_rs name = none)
    (h5 : dict_lookup r.seismic_transient name = none)
    (h6 : dict_lookup r.other name = none)
    (hk1 : (r.static.map Prod.fst).Nodup)
    (hk2 : (r.modal.map Prod.fst).Nodup)
    (hk3 : (r.seismic_elf.map Prod.fst).Nodup)
    (hk4 : (r.seismic_rs.map Prod.fst).Nodup)
    (hk5 : (r.seismic_transient.map Prod.fst).Nodup)
    (hk6 : (r.other.map Prod.fst).Nodup)
    (hcs_static : ∀ p ∈ r.static, p.2 = cs → p.1 = name)
    (hcs2 : cs ∉ r.modal.map Prod.snd)
    (hcs3 : cs ∉ r.seismic_elf.map Prod.snd)
    (hcs4 : cs ∉ r.seismic_rs.map Prod.snd)
    (hcs5 : cs ∉ r.seismic_transient.map Prod.snd)
    (hcs6 : cs ∉ r.other.map Prod.snd) :
    dict_lookup (get_load_cases r) name = some cm ∧
    ((get_load_cases r).map Prod.fst).Nodup ∧
    cm ∈ registry_run r ∧
    cs ∉ registry_run r := by
  have hlookup : dict_lookup (get_load_cases r) name = some cm := by
    unfold get_load_cases
    rw [dict_lookup_union, dict_lookup_union, dict_lookup_union,
      dict_lookup_union, dict_lookup_union, h6, h5, h4, h3, hmodal]
    rfl
  refine ⟨hlookup, ?_, ?_, ?_⟩
  · exact dict_union_keys_nodup _ _
      (dict_union_keys_nodup _ _
        (dict_union_keys_nodup _ _
          (dict_union_keys_nodup _ _
            (dict_union_keys_nodup _ _ hk1 hk2) hk3) hk4) hk5) hk6
  · exact dict_lookup_mem_snd _ _ _ hlookup
  · intro hmem
    obtain ⟨p5, hp5, hp5v⟩ := List.mem_map.mp hmem
    rcases mem_dict_union_entry _ _ _ hp5 with hin | ⟨p4, hp4, -, hp4v, -⟩
    · exact hcs6 (hp5v ▸ hin)
    · rcases mem_dict_union_entry _ _ _ hp4 with hin | ⟨p3, hp3, -, hp3v, -⟩
      · exact hcs5 (by rw [← hp4v, hp5v] at hin; exact hin)
      · rcases mem_dict_union_entry _ _ _ hp3 with hin | ⟨p2, hp2, -, hp2v, -⟩
        · exact hcs4 (by rw [← hp3v, ← hp4v, hp5v] at hin; exact hin)
        · rcases mem_dict_union_entry _ _ _ hp2
            with hin | ⟨p1, hp1, -, hp1v, -⟩
          · exact hcs3 (by
              rw [← hp2v, ← hp3v, ← hp4v, hp5v] at hin
              exact hin)
          · rcases mem_dict_union_entry _ _ _ hp1
              with hin | ⟨p0, hp0, hp0k, hp0v, hp0none⟩
            · exact hcs2 (by
                rw [← hp1v, ← hp2v, ← hp3v, ← hp4v, hp5v] at hin
                exact hin)
            · have hval : p0.2 = cs := by
                rw [← hp0v, ← hp1v, ← hp2v, ← hp3v, ← hp4v, hp5v]
              have hkey : p0.1 = name := hcs_static p0 hp0 hval
              rw [hkey] at hp0none
              rw [hp0none] at hmodal
              cases hmodal

/-- C5 witness: with the name `a` registered both as a static case
(value 1) and as a modal case (value 2), `get_load_cases` maps `a` to
the modal case, its keys stay duplicate-free, and `run` executes case 2
but never case 1. -/
theorem c5_get_load_cases_shadowing_witness :
    dict_lookup (get_load_cases
      { static := [("a", 1)], modal := [("a", 2)], seismic_elf := [],
        seismic_rs := [], seismic_transient := [], other := [] }) "a" =
      some 2 ∧
    (2 : ℕ) ∈ registry_run
      { static := [("a", 1)], modal := [("a", 2)], seismic_elf := [],
        seismic_rs := [], seismic_transient := [], other := [] } ∧
    (1 : ℕ) ∉ registry_run
      { static := [("a", 1)], modal := [("a", 2)], seismic_elf := [],
        seismic_rs := [], seismic_transient := [], other := [] } := by
  have h := c5_get_load_cases_shadowing
    (α := ℕ)
    { static := [("a", 1)], modal := [("a", 2)], seismic_elf := [],
      seismic_rs := [], seismic_transient := [], other := [] }
    "a" 1 2 rfl rfl rfl rfl rfl rfl
    (by simp) (by simp) (by simp) (by simp) (by simp) (by simp)
    (by intro p hp hv; simp at hp; rw [hp]) (by simp) (by simp)
    (by simp) (by simp) (by simp)
  exact ⟨h.1, h.2.2.1, h.2.2.2⟩

theorem mass_foldl_fresh (l : List ℕ) (reg : ℕ → Option (List ℚ))
    (pm : List ℚ) (hfresh : ∀ n ∈ l, reg n = none) (hnod : l.Nodup) :
    (∀ n ∈ l, l.foldl (fun r u => accumulate_mass r u pm) reg n = some pm) ∧
    (∀ m, m ∉ l → l.foldl (fun r u => accumulate_mass r u pm) reg m =
      reg m) := by
  induction l generalizing reg with
  | nil => exact ⟨fun n hn => absurd hn (List.not_mem_nil n), fun m _ => rfl⟩
  | cons a t ih =>
    have hstep : accumulate_mass reg a pm = dictSet reg a pm := by
      unfold accumulate_mass
      rw [hfresh a (List.mem_cons_self a t)]
    have hanot : a ∉ t := (List.nodup_cons.mp hnod).1
    have hfresh2 : ∀ n ∈ t, dictSet reg a pm n = none := by
      intro n hn
      have hne : n ≠ a := fun h => hanot (h ▸ hn)
      unfold dictSet
      rw [if_neg hne]
      exact hfresh n (List.mem_cons_of_mem a hn)
    obtain ⟨ihmem, ihout⟩ := ih (dictSet reg a pm) hfresh2
      (List.nodup_cons.mp hnod).2
    constructor
    · intro n hn
      rw [List.foldl_cons, hstep]
      rcases List.mem_cons.mp hn with rfl | hn2
      · rw [ihout n hanot]
        unfold dictSet
        rw [if_pos rfl]
      · exact ihmem n hn2
    · intro m hm
      rw [List.foldl_cons, hstep,
        ihout m (fun h => hm (List.mem_cons_of_mem a h))]
      unfold dictSet
      rw [if_neg (fun h => hm (by rw [h]; exact List.mem_cons_self a t))]

/-- C2 (counterexample to the claim as stated): a component with two
external nodes, one internal node, clear length 10 and `udl_z = -2`
(factor 1, `g` 1) has total weight 20, but `self_mass` divides by the
external-node count (2) while assigning only to the single internal
node, so the summed lumped mass is 10, not `weight * factor / g = 20`;
the per-internal-node mass is likewise 10, not 20. -/
theorem c2_self_mass_counterexample :
    (self_mass (fun u => if u = 7 then some ⟨10, [1, 2], [3]⟩ else none)
        [({ nodal_loads := [], component_udl := [(7, [0, 0, -2])] }, 1)] 1
        (fun _ => none)).map
      (fun reg => ((reg 3).getD []).getD 0 0) = .ok 10 ∧
    |(-2 : ℚ) * 10| * 1 / 1 = 20 ∧ (10 : ℚ) ≠ 20 := by
  refine ⟨?_, by norm_num, by norm_num⟩
  norm_num +decide [self_mass, accumulate_mass, dictSet, apply_ite,
    Except.map]

/-- C2 (amended): for a source case holding a single component UDL,
`self_mass` assigns to every internal node of the component the point
mass `(m, m, m, 0, 0, 0)` with
`m = |udl_z * clear_length| * factor / g / len(external_nodes)` —
the divisor is the external-node count, not the number of nodes
receiving mass — leaves all other nodes massless, and the masses summed
over the component's internal nodes total
`weight * factor / g * len(internal_nodes) / len(external_nodes)`,
which reproduces `weight * factor / g` exactly when the two node
counts coincide. -/
theorem c2_self_mass_distribution (components : ℕ → Option ComponentM)
    (cuid : ℕ) (comp : ComponentM) (udl : List ℚ) (factor g : ℚ)
    (hcomp : components cuid = some comp)
    (hext : comp.external_nodes.length ≠ 0)
    (hnod : comp.internal_nodes.Nodup) :
    ∃ reg, self_mass components
        [({ nodal_loads := [], component_udl := [(cuid, udl)] }, factor)] g
        (fun _ => none) = .ok reg ∧
      (∀ n ∈ comp.internal_nodes, reg n =
        some [|udl.getLastD 0 * comp.clear_length| * factor / g /
            (comp.external_nodes.length : ℚ),
          |udl.getLastD 0 * comp.clear_length| * factor / g /
            (comp.external_nodes.length : ℚ),
          |udl.getLastD 0 * comp.clear_length| * factor / g /
            (comp.external_nodes.length : ℚ), 0, 0, 0]) ∧
      (∀ n, n ∉ comp.internal_nodes → reg n = none) ∧
      ((comp.internal_nodes.map
          (fun n => ((reg n).getD []).getD 0 0)).sum =
        |udl.getLastD 0 * comp.clear_length| * factor / g *
          (comp.internal_nodes.length : ℚ) /
          (comp.external_nodes.length : ℚ)) ∧
      (comp.internal_nodes.length = comp.external_nodes.length →
        (comp.internal_nodes.map
          (fun n => ((reg n).getD []).getD 0 0)).sum =
        |udl.getLastD 0 * comp.clear_length| * factor / g) := by
  have hrun : self_mass components
      [({ nodal_loads := [], component_udl := [(cuid, udl)] }, factor)] g
      (fun _ => none) =
      .ok (comp.internal_nodes.foldl
        (fun r u => accumulate_mass r u
          [|udl.getLastD 0 * comp.clear_length| * factor / g /
              (comp.external_nodes.length : ℚ),
            |udl.getLastD 0 * comp.clear_length| * factor / g /
              (comp.external_nodes.length : ℚ),
            |udl.getLastD 0 * comp.clear_length| * factor / g /
              (comp.external_nodes.length : ℚ), 0, 0, 0])
        (fun _ => none)) := by
    simp only [self_mass, List.foldlM_cons, List.foldlM_nil, hcomp,
      List.foldl_nil, if_neg hext, bind, Except.bind, pure, Except.pure]
  obtain ⟨hmem, hout⟩ := mass_foldl_fresh comp.internal_nodes
    (fun _ => none)
    [|udl.getLastD 0 * comp.clear_length| * factor / g /
        (comp.external_nodes.length : ℚ),
      |udl.getLastD 0 * comp.clear_length| * factor / g /
        (comp.external_nodes.length : ℚ),
      |udl.getLastD 0 * comp.clear_length| * factor / g /
        (comp.external_nodes.length : ℚ), 0, 0, 0]
    (fun _ _ => rfl) hnod
  set reg := comp.internal_nodes.foldl
    (fun r u => accumulate_mass r u
      [|udl.getLastD 0 * comp.clear_length| * factor / g /
          (comp.external_nodes.length : ℚ),
        |udl.getLastD 0 * comp.clear_length| * factor / g /
          (comp.external_nodes.length : ℚ),
        |udl.getLastD 0 * comp.clear_length| * factor / g /
          (comp.external_nodes.length : ℚ), 0, 0, 0])
    (fun _ => none) with hregdef
  have hconst : comp.internal_nodes.map
      (fun n => ((reg n).getD []).getD 0 0) =
      comp.internal_nodes.map (fun _ =>
        |udl.getLastD 0 * comp.clear_length| * factor / g /
          (comp.external_nodes.length : ℚ)) := by
    apply List.map_congr_left
    intro n hn
    rw [hmem n hn]
    rfl
  refine ⟨reg, hrun, hmem, hout, ?_, ?_⟩
  · rw [hconst, List.map_const', List.sum_replicate, nsmul_eq_mul]
    ring
  · intro hlen
    have hcast : (comp.external_nodes.length : ℚ) ≠ 0 := by
      exact_mod_cast hext
    rw [hconst, List.map_const', List.sum_replicate, nsmul_eq_mul, hlen]
    field_simp
    rw [mul_comm g ((comp.external_nodes.length : ℚ)),
      mul_div_mul_left _ _ hcast]

/-- C2 witness: for a component with two external and two internal
nodes (so the counts coincide), `udl_z = -2`, clear length 10, factor 1
and `g = 1`, each internal node receives `(10, 10, 10, 0, 0, 0)`, node
5 receives nothing, and the summed lumped mass reproduces the total
weight 20. -/
theorem c2_self_mass_distribution_witness :
    (self_mass (fun u => if u = 7 then some ⟨10, [1, 2], [3, 4]⟩ else none)
        [({ nodal_loads := [], component_udl := [(7, [0, 0, -2])] }, 1)] 1
        (fun _ => none)).map
      (fun reg => (([3, 4].map (fun n => ((reg n).getD []).getD 0 0)).sum,
        reg 3, reg 5)) =
      .ok (20, some [10, 10, 10, 0, 0, 0], none) := by
  obtain ⟨reg, hrun, hmem, hout, hsum, hround⟩ :=
    c2_self_mass_distribution
      (fun u => if u = 7 then some ⟨10, [1, 2], [3, 4]⟩ else none)
      7 ⟨10, [1, 2], [3, 4]⟩ [0, 0, -2] 1 1 rfl (by norm_num) (by norm_num)
  rw [hrun]
  have h3 := hmem 3 (by norm_num)
  have h4 := hmem 4 (by norm_num)
  have h5 := hout 5 (by norm_num)
  simp only [Except.map, List.map_cons, List.map_nil]
  rw [h3, h4, h5]
  norm_num [List.getLastD]

theorem foldl_dictSet_not_mem {β : Type} (l : List (ℕ × ℚ))
    (g : ℕ × ℚ → β) (init : ℕ → Option β) (uid : ℕ)
    (hnot : uid ∉ l.map Prod.fst) :
    l.foldl (fun f q => dictSet f q.1 (g q)) init uid = init uid := by
  induction l generalizing init with
  | nil => rfl
  | cons a t ih =>
    rw [List.foldl_cons, ih _ (fun h => hnot (by simp [h]))]
    unfold dictSet
    rw [if_neg (fun h => hnot (by simp [h]))]

theorem foldl_dictSet_mem {β : Type} (l : List (ℕ × ℚ))
    (g : ℕ × ℚ → β) (init : ℕ → Option β) (p : ℕ × ℚ)
    (hnod : (l.map Prod.fst).Nodup) (hmem : p ∈ l) :
    l.foldl (fun f q => dictSet f q.1 (g q)) init p.1 = some (g p) := by
  induction l generalizing init with
  | nil => cases hmem
  | cons a t ih =>
    rw [List.map_cons] at hnod
    rw [List.foldl_cons]
    rcases List.mem_cons.mp hmem with rfl | hmem2
    · rw [foldl_dictSet_not_mem t g _ p.1 (List.nodup_cons.mp hnod).1]
      unfold dictSet
      rw [if_pos rfl]
    · exact ih _ (List.nodup_cons.mp hnod).2 hmem2

theorem filterMap_keys_sublist (l : List (ℕ × ℚ))
    (f : ℕ × ℚ → Option (ℕ × ℚ))
    (hf : ∀ a b, f a = some b → b.1 = a.1) :
    ((l.filterMap f).map Prod.fst).Sublist (l.map Prod.fst) := by
  induction l with
  | nil => exact List.Sublist.refl _
  | cons a t ih =>
    rw [List.filterMap_cons]
    cases hfa : f a with
    | none => exact List.Sublist.cons _ ih
    | some b =>
      rw [List.map_cons, List.map_cons, hf a b hfa]
      exact List.Sublist.cons₂ _ ih

/-- C3 (counterexample to the claim as stated): with base elevation 0,
a weighted node at elevation exactly 0 (uid 1, alongside uid 2 at
elevation 100) is not excluded by `define_loads` — it receives a
nodal-load entry (with zero force), because the source only skips nodes
whose elevation is strictly below the base. -/
theorem c3_elf_at_base_gets_entry :
    (define_loads pow_nat_exp (fun uid => if uid = 1 then [0] else [100])
        [(1, 5), (2, 10)] [(0, 1), (3, 1)] 1 1 999 (0.4) (25 / 14) (1, 1)
        [1, 0, 0] 0 1 (fun _ => none)) 1 = some [0, 0, 0] ∧
    ((fun uid => if uid = 1 then ([0] : List ℚ) else [100]) 1).getLastD 0 =
      0 ∧
    some [(0 : ℚ), 0, 0] ≠ (none : Option (List ℚ)) := by
  refine ⟨?_, by norm_num, by simp⟩
  norm_num +decide [define_loads, elf_controling_period, elf_v_b,
    elf_nodal_cvx, interp1d_extrapolate, sortPairs, insertPairSorted,
    interpSorted, cu_table, exponent_table, interpolate_spectrum,
    np_interp, dictSet, pow_nat_exp, List.filterMap_cons, List.getLast?]

/-- C3 (amended): writing `k` for the distribution exponent, `Vb` for
the base shear and `total` for the sum of the unnormalised `Cvx`
values, `define_loads` gives every weighted node at or above the base
elevation a nodal-load entry `direction * (Cvx_uid * Vb / total)` with
`Cvx_uid = weight * ((elevation - base) * ltf) ** k`, gives nodes
strictly below the base (or unweighted nodes) no entry, and the scaled
`Cvx` values over all retained nodes sum exactly to `Vb`. -/
theorem c3_elf_force_distribution (fpow : ℚ → ℚ → ℚ)
    (all_nodes : ℕ → List ℚ) (seismic_weight : List (ℕ × ℚ))
    (design_spectrum : List (ℚ × ℚ)) (R Ie T1 sd1 H : ℚ) (ctx : ℚ × ℚ)
    (direction : List ℚ) (base ltf : ℚ) (k vb total : ℚ)
    (cvx : List (ℕ × ℚ))
    (hnodup : (seismic_weight.map Prod.fst).Nodup)
    (hk : k = interp1d_extrapolate exponent_table
      (elf_controling_period fpow T1 sd1 H ctx))
    (hcvx : cvx = elf_nodal_cvx fpow all_nodes seismic_weight base ltf k)
    (hvb : vb = elf_v_b design_spectrum seismic_weight R Ie
      (elf_controling_period fpow T1 sd1 H ctx))
    (htotal : total = (cvx.map Prod.snd).sum)
    (htot : total ≠ 0) :
    (∀ uid w, (uid, w) ∈ seismic_weight →
      ¬((all_nodes uid).getLastD 0 - base < 0) →
      define_loads fpow all_nodes seismic_weight design_spectrum R Ie T1
          sd1 H ctx direction base ltf (fun _ => none) uid =
        some (direction.map (fun v => v *
          (w * fpow (((all_nodes uid).getLastD 0 - base) * ltf) k *
            (vb / total))))) ∧
    (∀ uid, (∀ w, (uid, w) ∈ seismic_weight →
        (all_nodes uid).getLastD 0 - base < 0) →
      define_loads fpow all_nodes seismic_weight design_spectrum R Ie T1
          sd1 H ctx direction base ltf (fun _ => none) uid = none) ∧
    ((cvx.map (fun uv => uv.2 * (vb / total))).sum = vb) := by
  subst hk hcvx hvb htotal
  have hkeys : ((elf_nodal_cvx fpow all_nodes seismic_weight base ltf
      (interp1d_extrapolate exponent_table
        (elf_controling_period fpow T1 sd1 H ctx))).map Prod.fst).Nodup := by
    refine List.Nodup.sublist ?_ hnodup
    apply filterMap_keys_sublist
    intro a b hab
    simp only [elf_nodal_cvx] at hab ⊢
    by_cases hlt : (all_nodes a.1).getLastD 0 - base < 0
    · rw [if_pos hlt] at hab
      cases hab
    · rw [if_neg hlt] at hab
      cases hab
      rfl
  refine ⟨?_, ?_, ?_⟩
  · intro uid w hmem helev
    simp only [define_loads]
    have hcvxmem : (uid, w * fpow (((all_nodes uid).getLastD 0 - base) *
        ltf) (interp1d_extrapolate exponent_table
          (elf_controling_period fpow T1 sd1 H ctx))) ∈
        elf_nodal_cvx fpow all_nodes seismic_weight base ltf
          (interp1d_extrapolate exponent_table
            (elf_controling_period fpow T1 sd1 H ctx)) := by
      rw [elf_nodal_cvx]
      exact List.mem_filterMap.mpr ⟨(uid, w), hmem, by rw [if_neg helev]⟩
    have hsc : ((uid, w * fpow (((all_nodes uid).getLastD 0 - base) *
        ltf) (interp1d_extrapolate exponent_table
          (elf_controling_period fpow T1 sd1 H ctx)) *
        (elf_v_b design_spectrum seismic_weight R Ie
            (elf_controling_period fpow T1 sd1 H ctx) /
          ((elf_nodal_cvx fpow all_nodes seismic_weight base ltf
              (interp1d_extrapolate exponent_table
                (elf_controling_period fpow T1 sd1 H ctx))).map
            Prod.snd).sum))) ∈
        (elf_nodal_cvx fpow all_nodes seismic_weight base ltf
          (interp1d_extrapolate exponent_table
            (elf_controling_period fpow T1 sd1 H ctx))).map
          (fun uv => (uv.1, uv.2 *
            (elf_v_b design_spectrum seismic_weight R Ie
                (elf_controling_period fpow T1 sd1 H ctx) /
              ((elf_nodal_cvx fpow all_nodes seismic_weight base ltf
                  (interp1d_extrapolate exponent_table
                    (elf_controling_period fpow T1 sd1 H ctx))).map
                Prod.snd).sum))) :=
      List.mem_map.mpr ⟨_, hcvxmem, rfl⟩
    have := foldl_dictSet_mem _
      (fun uf => direction.map (fun v => v * uf.2)) (fun _ => none) _
      (by
        rw [List.map_map]
        exact hkeys) hsc
    exact this
  · intro uid hbelow
    simp only [define_loads]
    have hnotin : uid ∉ ((elf_nodal_cvx fpow all_nodes seismic_weight
        base ltf (interp1d_extrapolate exponent_table
          (elf_controling_period fpow T1 sd1 H ctx))).map
        (fun uv => (uv.1, uv.2 *
          (elf_v_b design_spectrum seismic_weight R Ie
              (elf_controling_period fpow T1 sd1 H ctx) /
            ((elf_nodal_cvx fpow all_nodes seismic_weight base ltf
                (interp1d_extrapolate exponent_table
                  (elf_controling_period fpow T1 sd1 H ctx))).map
              Prod.snd).sum)))).map Prod.fst := by
      rw [List.map_map]
      intro hin
      obtain ⟨q, hq, hq1⟩ := List.mem_map.mp hin
      rw [elf_nodal_cvx] at hq
      obtain ⟨a, ha, hfa⟩ := List.mem_filterMap.mp hq
      by_cases hlt : (all_nodes a.1).getLastD 0 - base < 0
      · rw [if_pos hlt] at hfa
        cases hfa
      · rw [if_neg hlt] at hfa
        cases hfa
        have ha2 : (uid, a.2) ∈ seismic_weight := by
          have : a.1 = uid := hq1
          rw [← this]
          exact ha
        exact hlt (by
          have : a.1 = uid := hq1
          rw [this]
          exact hbelow a.2 ha2)
    exact foldl_dictSet_not_mem _ _ _ _ hnotin
  · rw [List.sum_map_mul_right]
    field_simp

/-- C3 witness: in a two-node configuration (uid 1 at the base, uid 2
at elevation 100, weights 5 and 10, flat unit spectrum, `R = Ie = 1`,
`Vb = 15`, exponent 2), node 2 receives the force `direction * 15`,
the scaled `Cvx` values sum exactly to `Vb = 15`, and the unweighted
node 3 receives no entry. -/
theorem c3_elf_force_distribution_witness :
    (define_loads pow_nat_exp (fun uid => if uid = 1 then [0] else [100])
        [(1, 5), (2, 10)] [(0, 1), (3, 1)] 1 1 999 (0.4) (25 / 14) (1, 1)
        [1, 0, 0] 0 1 (fun _ => none)) 2 = some [15, 0, 0] ∧
    (([((1 : ℕ), (0 : ℚ)), (2, 100000)].map
      (fun uv => uv.2 * (15 / 100000))).sum = 15) ∧
    (define_loads pow_nat_exp (fun uid => if uid = 1 then [0] else [100])
        [(1, 5), (2, 10)] [(0, 1), (3, 1)] 1 1 999 (0.4) (25 / 14) (1, 1)
        [1, 0, 0] 0 1 (fun _ => none)) 3 = none := by
  obtain ⟨h1, h2, h3⟩ := c3_elf_force_distribution pow_nat_exp
    (fun uid => if uid = 1 then [0] else [100]) [(1, 5), (2, 10)]
    [(0, 1), (3, 1)] 1 1 999 (0.4) (25 / 14) (1, 1) [1, 0, 0] 0 1
    2 15 100000 [(1, 0), (2, 100000)]
    (by simp)
    (by norm_num +decide [interp1d_extrapolate, sortPairs,
      insertPairSorted, interpSorted, exponent_table,
      elf_controling_period, cu_table, pow_nat_exp])
    (by norm_num +decide [elf_nodal_cvx, pow_nat_exp,
      List.filterMap_cons, List.getLast?, interp1d_extrapolate, sortPairs,
      insertPairSorted, interpSorted, exponent_table,
      elf_controling_period, cu_table, show Int.toNat 2 = 2 from rfl])
    (by norm_num +decide [elf_v_b, interpolate_spectrum, np_interp,
      elf_controling_period, interp1d_extrapolate, sortPairs,
      insertPairSorted, interpSorted, cu_table, pow_nat_exp])
    (by norm_num)
    (by norm_num)
  refine ⟨?_, h3, ?_⟩
  · have h := h1 2 10 (by norm_num) (by norm_num)
    rw [h]
    norm_num [pow_nat_exp, show Int.toNat 2 = 2 from rfl]
  · exact h2 3 (by intro w hw; simp at hw)

theorem np_linspace_length (a b : ℚ) (n : ℕ) :
    (np_linspace a b n).length = n := by
  unfold np_linspace
  by_cases h : n = 1
  · rw [if_pos h, h]
    rfl
  · rw [if_neg h, List.length_map, List.length_range]

theorem flatMap_getElem_uniform {α β : Type} (l : List α)
    (f : α → List β) (n : ℕ) (hn : ∀ a ∈ l, (f a).length = n)
    (e s : ℕ) (hs : s < n) :
    (l.flatMap f)[e * n + s]? = l[e]?.bind (fun a => (f a)[s]?) := by
  induction l generalizing e with
  | nil => simp
  | cons a t ih =>
    cases e with
    | zero =>
      rw [List.flatMap_cons, Nat.zero_mul, Nat.zero_add,
        List.getElem?_append,
        if_pos (by
          rw [hn a (List.mem_cons_self a t)]
          exact hs)]
      simp
    | succ e2 =>
      rw [List.flatMap_cons, List.getElem?_append_right (by
        rw [hn a (List.mem_cons_self a t), Nat.succ_mul]
        omega)]
      have harith : (e2 + 1) * n + s - (f a).length = e2 * n + s := by
        rw [hn a (List.mem_cons_self a t), Nat.succ_mul]
        omega
      rw [harith, ih (fun x hx => hn x (List.mem_cons_of_mem a hx)) e2]
      simp

theorem zip_getD_of_lt {α β : Type} [Inhabited α] [Inhabited β]
    (l1 : List α) (l2 : List β) (e : ℕ) (h1 : e < l1.length)
    (h2 : e < l2.length) (d1 : α) (d2 : β) :
    (List.zip l1 l2).getD e (d1, d2) = (l1.getD e d1, l2.getD e d2) := by
  rw [List.getD_eq_getElem?_getD, List.zip_eq_zipWith,
    List.getElem?_zipWith, List.getElem?_eq_getElem h1,
    List.getElem?_eq_getElem h2]
  show (l1[e], l2[e]) = (l1.getD e d1, l2.getD e d2)
  rw [List.getD_eq_getElem?_getD, List.getElem?_eq_getElem h1,
    Option.getD_some, List.getD_eq_getElem?_getD,
    List.getElem?_eq_getElem h2, Option.getD_some]

theorem getD_map_of_lt {α β : Type} (l : List α) (F : α → β) (r : ℕ)
    (h : r < l.length) (d0 : α) (db : β) :
    (l.map F).getD r db = F (l.getD r d0) := by
  rw [List.getD_eq_getElem?_getD, List.getElem?_map,
    List.getElem?_eq_getElem h]
  show F l[r] = F (l.getD r d0)
  rw [List.getD_eq_getElem?_getD, List.getElem?_eq_getElem h,
    Option.getD_some]

theorem getD_mem_of_lt {α : Type} (l : List α) (r : ℕ)
    (h : r < l.length) (d0 : α) : l.getD r d0 ∈ l := by
  rw [List.getD_eq_getElem?_getD, List.getElem?_eq_getElem h,
    Option.getD_some]
  exact List.getElem_mem h

theorem zip_flatMap_station_lookup {α : Type} [Inhabited α] (A : List α)
    (C : List (List ℚ)) (fn : α → ℚ → ℚ) (n e s : ℕ) (a0 : α)
    (hA : A.length = C.length) (hC : ∀ c ∈ C, c.length = n)
    (he : e < C.length) (hs : s < n) :
    ((List.zip A C).flatMap
        (fun t => t.2.map (fun x => fn t.1 x))).getD (e * n + s) 0 =
      fn (A.getD e a0) ((C.getD e []).getD s 0) := by
  have heA : e < A.length := hA ▸ he
  have hsC : s < (C[e]).length := by
    rw [hC (C[e]) (List.getElem_mem he)]
    exact hs
  rw [List.getD_eq_getElem?_getD,
    flatMap_getElem_uniform _ _ n (fun t ht => by
      rw [List.length_map]
      exact hC t.2 (List.of_mem_zip ht).2) e s hs,
    List.zip_eq_zipWith, List.getElem?_zipWith,
    List.getElem?_eq_getElem heA, List.getElem?_eq_getElem he]
  show ((C[e].map (fun x => fn A[e] x))[s]?).getD 0 =
    fn (A.getD e a0) ((C.getD e []).getD s 0)
  rw [List.getElem?_map, List.getElem?_eq_getElem hsC]
  show fn A[e] (C[e])[s] = fn (A.getD e a0) ((C.getD e []).getD s 0)
  rw [List.getD_eq_getElem?_getD A, List.getElem?_eq_getElem heA,
    Option.getD_some, List.getD_eq_getElem?_getD C,
    List.getElem?_eq_getElem he, Option.getD_some,
    List.getD_eq_getElem?_getD (C[e]), List.getElem?_eq_getElem hsC,
    Option.getD_some]

/-- C4: in `calculate_basic_forces`, the value reported for analysis
row `r`, element `e`, station `s` (at flattened column
`e * num_stations + s`, whose station position `x` is the `s`-th of
`num_stations` evenly spaced points over the element's clear length)
satisfies the closed-form equilibrium formulas
`N(x) = -(N_i + w_x x)`, `V_y(x) = V_yi + w_y x` and
`M_z(x) = 0.5 w_y x² + V_yi x - M_zi`, where `N_i, V_yi, M_zi` are the
i-end recorder values and `(w_x, w_y)` the element's local distributed
load (0 when it has none). -/
theorem c4_basic_forces_station_formulas (d : BasicForcesData)
    (r e s : ℕ) (hax : r < d.axial_i.length)
    (hsh : r < d.shear_y_i.length) (hmo : r < d.moment_z_i.length)
    (haxlen : ∀ row ∈ d.axial_i, row.length = d.elements.length)
    (hshlen : ∀ row ∈ d.shear_y_i, row.length = d.elements.length)
    (hmolen : ∀ row ∈ d.moment_z_i, row.length = d.elements.length)
    (he : e < d.elements.length) (hs : s < d.num_stations) :
    ((result_axial d).getD r []).getD (e * d.num_stations + s) 0 =
      -(((d.axial_i.getD r []).getD e 0) +
        (match d.udls_local (d.elements.getD e 0) with
          | some u => u.1
          | none => 0) *
        ((np_linspace 0 (d.element_lengths (d.elements.getD e 0))
          d.num_stations).getD s 0)) ∧
    ((result_shear_y d).getD r []).getD (e * d.num_stations + s) 0 =
      ((d.shear_y_i.getD r []).getD e 0) +
        (match d.udls_local (d.elements.getD e 0) with
          | some u => u.2.1
          | none => 0) *
        ((np_linspace 0 (d.element_lengths (d.elements.getD e 0))
          d.num_stations).getD s 0) ∧
    ((result_moment_z d).getD r []).getD (e * d.num_stations + s) 0 =
      ((np_linspace 0 (d.element_lengths (d.elements.getD e 0))
          d.num_stations).getD s 0) ^ 2 * (0.5 : ℚ) *
        (match d.udls_local (d.elements.getD e 0) with
          | some u => u.2.1
          | none => 0) +
      ((np_linspace 0 (d.element_lengths (d.elements.getD e 0))
          d.num_stations).getD s 0) *
        ((d.shear_y_i.getD r []).getD e 0) -
      ((d.moment_z_i.getD r []).getD e 0) := by
  have hloclen : ∀ c ∈ locations d, c.length = d.num_stations := by
    intro c hc
    obtain ⟨el, -, hel⟩ := List.mem_map.mp hc
    rw [← hel, np_linspace_length]
  have hlocs : (locations d).length = d.elements.length :=
    List.length_map _ _
  have hwax : (w_axial d).length = d.elements.length :=
    List.length_map _ _
  have hwsh : (w_shear_y d).length = d.elements.length :=
    List.length_map _ _
  have helocs : e < (locations d).length := hlocs ▸ he
  have haxrow : e < (d.axial_i.getD r []).length := by
    rw [haxlen _ (getD_mem_of_lt _ _ hax _)]
    exact he
  have hshrow : e < (d.shear_y_i.getD r []).length := by
    rw [hshlen _ (getD_mem_of_lt _ _ hsh _)]
    exact he
  have hmorow : e < (d.moment_z_i.getD r []).length := by
    rw [hmolen _ (getD_mem_of_lt _ _ hmo _)]
    exact he
  have hgetwax : (w_axial d).getD e 0 =
      (match d.udls_local (d.elements.getD e 0) with
        | some u => u.1
        | none => 0) := by
    rw [w_axial, getD_map_of_lt _ _ e he 0 0]
  have hgetwsh : (w_shear_y d).getD e 0 =
      (match d.udls_local (d.elements.getD e 0) with
        | some u => u.2.1
        | none => 0) := by
    rw [w_shear_y, getD_map_of_lt _ _ e he 0 0]
  have hgetlocs : (locations d).getD e [] =
      np_linspace 0 (d.element_lengths (d.elements.getD e 0))
        d.num_stations := by
    rw [locations, getD_map_of_lt _ _ e he 0 []]
  refine ⟨?_, ?_, ?_⟩
  · rw [result_axial, getD_map_of_lt _ _ r hax [] [],
      zip_flatMap_station_lookup _ _
        (fun dw x => -(dw.1 + dw.2 * x)) d.num_stations e s (0, 0)
        (by
          rw [List.length_zip, haxlen _ (getD_mem_of_lt _ _ hax _),
            hwax, hlocs]
          exact Nat.min_self _)
        hloclen helocs hs,
      zip_getD_of_lt _ _ e haxrow (hwax ▸ he) 0 0, hgetwax, hgetlocs]
  · rw [result_shear_y, getD_map_of_lt _ _ r hsh [] [],
      zip_flatMap_station_lookup _ _
        (fun dw x => dw.1 + dw.2 * x) d.num_stations e s (0, 0)
        (by
          rw [List.length_zip, hshlen _ (getD_mem_of_lt _ _ hsh _),
            hwsh, hlocs]
          exact Nat.min_self _)
        hloclen helocs hs,
      zip_getD_of_lt _ _ e hshrow (hwsh ▸ he) 0 0, hgetwsh, hgetlocs]
  · have hziprows : r < (List.zip d.shear_y_i d.moment_z_i).length := by
      rw [List.length_zip]
      exact lt_min hsh hmo
    rw [result_moment_z, getD_map_of_lt _ _ r hziprows ([], []) [],
      zip_getD_of_lt _ _ r hsh hmo [] []]
    rw [zip_flatMap_station_lookup _ _
        (fun vm x => x ^ 2 * (0.5 : ℚ) * vm.2 + x * vm.1.1 - vm.1.2)
        d.num_stations e s ((0, 0), 0)
        (by
          rw [List.length_zip, List.length_zip, hwsh, hlocs]
          rw [hshlen _ (getD_mem_of_lt _ _ hsh _),
            hmolen _ (getD_mem_of_lt _ _ hmo _)]
          omega)
        hloclen helocs hs,
      zip_getD_of_lt _ _ e (by
        rw [List.length_zip]
        exact lt_min hshrow hmorow) (hwsh ▸ he) (0, 0) 0,
      zip_getD_of_lt _ _ e hshrow hmorow 0 0, hgetwsh, hgetlocs]

/-- C4 witness: an element with i-end axial force -100, no distributed
load, clear length 120 and 3 stations reports axial force 100 at every
station. -/
theorem c4_basic_forces_station_formulas_witness :
    ((result_axial
      { elements := [7], axial_i := [[-100]], shear_y_i := [[0]],
        moment_z_i := [[0]], udls_local := fun _ => none,
        element_lengths := fun _ => 120,
        num_stations := 3 }).getD 0 []).getD 0 0 = 100 ∧
    ((result_axial
      { elements := [7], axial_i := [[-100]], shear_y_i := [[0]],
        moment_z_i := [[0]], udls_local := fun _ => none,
        element_lengths := fun _ => 120,
        num_stations := 3 }).getD 0 []).getD 1 0 = 100 ∧
    ((result_axial
      { elements := [7], axial_i := [[-100]], shear_y_i := [[0]],
        moment_z_i := [[0]], udls_local := fun _ => none,
        element_lengths := fun _ => 120,
        num_stations := 3 }).getD 0 []).getD 2 0 = 100 := by
  refine ⟨?_, ?_, ?_⟩
  · have h := (c4_basic_forces_station_formulas
      { elements := [7], axial_i := [[-100]], shear_y_i := [[0]],
        moment_z_i := [[0]], udls_local := fun _ => none,
        element_lengths := fun _ => 120, num_stations := 3 }
      0 0 0 (by norm_num) (by norm_num) (by norm_num)
      (by simp) (by simp) (by simp) (by norm_num) (by norm_num)).1
    rw [show (0 : ℕ) * 3 + 0 = 0 by norm_num] at h
    rw [h]
    norm_num
  · have h := (c4_basic_forces_station_formulas
      { elements := [7], axial_i := [[-100]], shear_y_i := [[0]],
        moment_z_i := [[0]], udls_local := fun _ => none,
        element_lengths := fun _ => 120, num_stations := 3 }
      0 0 1 (by norm_num) (by norm_num) (by norm_num)
      (by simp) (by simp) (by simp) (by norm_num) (by norm_num)).1
    rw [show (0 : ℕ) * 3 + 1 = 1 by norm_num] at h
    rw [h]
    norm_num
  · have h := (c4_basic_forces_station_formulas
      { elements := [7], axial_i := [[-100]], shear_y_i := [[0]],
        moment_z_i := [[0]], udls_local := fun _ => none,
        element_lengths := fun _ => 120, num_stations := 3 }
      0 0 2 (by norm_num) (by norm_num) (by norm_num)
      (by simp) (by simp) (by simp) (by norm_num) (by norm_num)).1
    rw [show (0 : ℕ) * 3 + 2 = 2 by norm_num] at h
    rw [h]
    norm_num
